import Mathlib

/-!
# webproxy-lab: the caching proxy (`proxy.c`, `proxy-2.c`)

A shallow embedding of the cache, the response relay, the URI parser and the
request handler of the two proxy variants, followed by the properties proved
about them.

Conventions of the embedding

* A C string (`char *`, NUL terminated) is the `List Char` of the characters
  before the terminator; `strcmp(a, b) == 0` is equality of the two lists.
  A byte buffer with an explicit length is a `List Char` as well.
* The singly linked list `CachedItem* head` is a `List CachedItem` whose first
  element is the node `cache->head` points to; `NULL` is `[]`.
* `int` is `Int`, and every `int` addition or subtraction of the source goes
  through `wrap_int` (two's complement, 32 bits, what the usual targets do
  where C leaves signed overflow undefined).  On the states reached from
  `cache_init` no sum leaves the range of `int` (`cache_evict_bounded`).
  `ssize_t` byte counts that are bounded by a buffer size are `Nat`.
* A run that dereferences `NULL` (or copies into a failed allocation) is the
  result `none`.
-/

namespace Proxy

/-! ## Constants -/

/-- The `#define MAX_CACHE_SIZE 1049000` of both variants. -/
def MAX_CACHE_SIZE : Int := 1049000

/-- The `#define MAX_OBJECT_SIZE 102400` of both variants. -/
def MAX_OBJECT_SIZE : Nat := 102400

/-- Two's complement reduction of an integer to the range of a 32 bit `int`. -/
def wrap_int (x : Int) : Int := (x + 2147483648) % 4294967296 - 2147483648

/-! ## The cache (`CachedItem`, `Cache`, `cache_init`, `cache_search`, `cache_add`) -/

/-- One node of the list: `uri`, `response`, `size` (the `next` pointer is the
tail of the list that holds the node). -/
structure CachedItem where
  uri : List Char
  response : List Char
  size : Int
deriving DecidableEq, Repr

/-- The cache: the list starting at `head` and the running `total_size` (the
mutex is not part of the sequential state). -/
structure Cache where
  head : List CachedItem
  total_size : Int
deriving DecidableEq, Repr

/-- The state `cache_init` leaves: `head = NULL`, `total_size = 0`. -/
def cache_init : Cache := { head := [], total_size := 0 }

/-- The traversal of `cache_search`, from the node `current`. -/
def cache_search_from (uri : List Char) : List CachedItem → Option CachedItem
  | [] => none
  | current :: next =>
    if uri = current.uri then some current else cache_search_from uri next

/-- The function `cache_search`: the first node from the head whose uri
compares equal, `none` for `NULL`. -/
def cache_search (cache : Cache) (uri : List Char) : Option CachedItem :=
  cache_search_from uri cache.head

/-- The eviction loop of `cache_add`:
`while (cache->total_size + size > MAX_CACHE_SIZE)` it unlinks the head and
subtracts its size.  With the condition true and `head == NULL` the statement
`cache->head = oldest->next` dereferences `NULL`: the result is `none`. -/
def cache_evict (size : Int) : List CachedItem → Int → Option (List CachedItem × Int)
  | [], total_size =>
    if wrap_int (total_size + size) > MAX_CACHE_SIZE then none
    else some ([], total_size)
  | oldest :: next, total_size =>
    if wrap_int (total_size + size) > MAX_CACHE_SIZE then
      cache_evict size next (wrap_int (total_size - oldest.size))
    else some (oldest :: next, total_size)

/-- The function `cache_add` (the same text in both variants).  A size above
`MAX_CACHE_SIZE` returns at once.  Otherwise the eviction loop runs, then a
new node holding `strdup(uri)` and the first `size` bytes of `response` is
linked in front of the head and `size` is added to `total_size`.
A negative `size` becomes a huge `size_t` in `malloc(size)` and
`memcpy(.., size)`: the copy faults, result `none`.  The allocation of the
node itself is taken to succeed (the source does not test it). -/
def cache_add (cache : Cache) (uri response : List Char) (size : Int) : Option Cache :=
  if size > MAX_CACHE_SIZE then some cache
  else
    match cache_evict size cache.head cache.total_size with
    | none => none
    | some (head, total_size) =>
      if size < 0 then none
      else
        some { head := { uri := uri, response := response.take size.toNat, size := size } :: head,
               total_size := wrap_int (total_size + size) }

/-- The arguments of one `cache_add` call. -/
structure AddCall where
  uri : List Char
  response : List Char
  size : Int
deriving DecidableEq, Repr

/-- A sequence of `cache_add` calls applied one after another (as the lock of
the cache serialises them); `none` as soon as one call faults. -/
def cache_add_seq : Cache → List AddCall → Option Cache
  | cache, [] => some cache
  | cache, call :: rest =>
    match cache_add cache call.uri call.response call.size with
    | none => none
    | some cache1 => cache_add_seq cache1 rest

/-- The sum of the `size` fields of the nodes of a list. -/
def sum_sizes : List CachedItem → Int
  | [] => 0
  | item :: next => item.size + sum_sizes next

/-- The invariant of the reachable cache states: `total_size` is the sum of the
resident sizes, no resident size is negative, and the total is within the
capacity. -/
def CacheOk (cache : Cache) : Prop :=
  cache.total_size = sum_sizes cache.head ∧ (∀ it ∈ cache.head, 0 ≤ it.size) ∧
    cache.total_size ≤ MAX_CACHE_SIZE

/-- The uris of the resident entries, from the head of the list. -/
def resident_uris (cache : Cache) : List (List Char) := cache.head.map CachedItem.uri

/-- The number of resident entries whose uri is the given one. -/
def count_uri (uri : List Char) : List CachedItem → Nat
  | [] => 0
  | item :: next => (if item.uri = uri then 1 else 0) + count_uri uri next

/-- Whether every call of a sequence of `cache_add` calls is made for a uri that
is not resident at the time of the call (`cache_search` would miss).  This
is a condition on the sequence of calls; nothing in `cache_add` or in `doit`
enforces it. -/
def adds_absent : Cache → List AddCall → Bool
  | _, [] => true
  | cache, call :: rest =>
    (cache_search cache call.uri).isNone &&
      match cache_add cache call.uri call.response call.size with
      | none => true
      | some cache1 => adds_absent cache1 rest

/-! ## The relay (`relay_response`, the same text in both variants) -/

/-- What `relay_response` leaves behind: the two out-parameters
`*response_buffer` (`none` for `NULL`) and `*response_size`, and the bytes it
wrote to `clientfd`, in order. -/
structure RelayResult where
  response_buffer : Option (List Char)
  response_size : Nat
  client : List Char
deriving DecidableEq, Repr

/-- The locals of the read loop of `relay_response`: the written part of
`tmp_buffer`, `total_bytes`, and the bytes written to the client so far. -/
structure RelayState where
  tmp_buffer : List Char
  total_bytes : Nat
  client : List Char
deriving DecidableEq, Repr

/-- The loop `while ((n = Rio_readn(serverfd, buf, sizeof(buf))) > 0)`.  The
origin is the list of the results of the successive reads (`buf` holds the
chunk, `n` is its length); a read of `0` bytes, or the end of the list, ends
the loop.  A chunk is copied to `tmp_buffer + total_bytes` only when
`total_bytes + n <= MAX_OBJECT_SIZE`; it is written to the client in every
case. -/
def relay_loop : List (List Char) → RelayState → RelayState
  | [], st => st
  | buf :: reads, st =>
    if buf.length > 0 then
      let st1 : RelayState :=
        if st.total_bytes + buf.length ≤ MAX_OBJECT_SIZE then
          { st with tmp_buffer := st.tmp_buffer.take st.total_bytes ++ buf,
                    total_bytes := st.total_bytes + buf.length }
        else st
      relay_loop reads { st1 with client := st1.client ++ buf }
    else st

/-- The function `relay_response`.  `malloc_ok` and `realloc_ok` say whether
`malloc(MAX_OBJECT_SIZE)` and `realloc(tmp_buffer, total_bytes)` succeed.  When
the first allocation fails the function returns before anything is read.
After the loop, `total_bytes > 0` hands back the first `total_bytes` bytes of
`tmp_buffer` and that count; otherwise `NULL` and `0`. -/
def relay_response (malloc_ok realloc_ok : Bool) (reads : List (List Char)) : RelayResult :=
  if malloc_ok then
    let st := relay_loop reads { tmp_buffer := [], total_bytes := 0, client := [] }
    if st.total_bytes > 0 then
      if realloc_ok then
        { response_buffer := some (st.tmp_buffer.take st.total_bytes),
          response_size := st.total_bytes, client := st.client }
      else { response_buffer := none, response_size := 0, client := st.client }
    else { response_buffer := none, response_size := 0, client := st.client }
  else { response_buffer := none, response_size := 0, client := [] }

/-- The total number of bytes of a sequence of chunks. -/
def total_length (reads : List (List Char)) : Nat := reads.flatten.length

/-! ## String functions of the C library, on lists of characters

A pointer into a string is the offset from its start; `NULL` is `none`. -/

/-- The function `strstr(s, needle)`: the offset of the first occurrence of `needle` in `s`. -/
def strstr (needle : List Char) : List Char → Option Nat
  | [] => if needle = [] then some 0 else none
  | c :: s =>
    if needle.isPrefixOf (c :: s) then some 0 else (strstr needle s).map (· + 1)

/-- The function `strchr(s, ch)` for a character other than the terminator: the offset of the
first `ch` in `s`. -/
def strchr (ch : Char) : List Char → Option Nat
  | [] => none
  | c :: s => if c = ch then some 0 else (strchr ch s).map (· + 1)

/-- The function `strpbrk(s, accept)`: the offset of the first character of `s` that occurs
in `accept`. -/
def strpbrk (accept : List Char) : List Char → Option Nat
  | [] => none
  | c :: s => if c ∈ accept then some 0 else (strpbrk accept s).map (· + 1)

/-- The conversion `%[0-9]` of `sscanf`: the longest run of decimal digits at
the start of the input; when the run is empty the conversion fails and the
destination keeps its previous content. -/
def scan_digits (input previous : List Char) : List Char :=
  if input.takeWhile Char.isDigit = [] then previous else input.takeWhile Char.isDigit

/-! ## `parse_uri` -/

/-- The three output buffers of `parse_uri`, as C strings, and the value
returned (`proxy.c` returns `0` on every path). -/
structure ParsedUri where
  status : Int
  hostname : List Char
  pathname : List Char
  port : List Char
deriving DecidableEq, Repr

namespace V1

/-- The function `parse_uri` of `proxy.c`.  `hostbegin` is `uri + 7` when
`"http://"` occurs anywhere in `uri`, `uri + 8` when `"https://"` does, else
`uri`; `hostend` is the first `/` or `:` from there. -/
def parse_uri (uri : List Char) : ParsedUri :=
  let start : List Char × List Char :=
    if (strstr "http://".toList uri).isSome then (uri.drop 7, "80".toList)
    else if (strstr "https://".toList uri).isSome then (uri.drop 8, "443".toList)
    else (uri, "80".toList)
  let hostbegin := start.1
  let port := start.2
  match strpbrk ['/', ':'] hostbegin with
  | none => { status := 0, hostname := hostbegin, pathname := ['/'], port := port }
  | some hostend =>
    let hostname := hostbegin.take hostend
    let port1 :=
      if (hostbegin.drop hostend).head? = some ':' then
        scan_digits (hostbegin.drop (hostend + 1)) port
      else port
    let pathname :=
      match strchr '/' hostbegin with
      | none => ['/']
      | some pathbegin => hostbegin.drop pathbegin
    { status := 0, hostname := hostname, pathname := pathname, port := port1 }

end V1

namespace V2

/-- What `parse_uri` of `proxy-2.c` leaves: the three output buffers and the
C string now held by the `uri` buffer, into which the function writes
terminators. -/
structure ParsedUri2 where
  uri : List Char
  hostname : List Char
  pathname : List Char
  port : List Char
deriving DecidableEq, Repr

/-- The function `parse_uri` of `proxy-2.c` (it returns `void`).  `host_ptr` is
the offset `host` into `uri`.  `*path_ptr = 0` cuts the string held by `uri`
at the first `/` from `host_ptr`, then `*port_ptr = 0` cuts it at the first
`:` of what is left of the host part; the port is the text between the two
cuts. -/
def parse_uri (uri : List Char) : ParsedUri2 :=
  let host : Nat :=
    match strstr "://".toList uri with
    | some protocol_ptr => protocol_ptr + 3
    | none => 0
  let cut1 : List Char × List Char :=
    match strchr '/' (uri.drop host) with
    | some path_ptr => ((uri.drop host).drop path_ptr, uri.take (host + path_ptr))
    | none => (['/'], uri)
  let pathname := cut1.1
  let uri1 := cut1.2
  let cut2 : List Char × List Char :=
    match strchr ':' (uri1.drop host) with
    | some port_ptr => ((uri1.drop host).drop (port_ptr + 1), uri1.take (host + port_ptr))
    | none => ("80".toList, uri1)
  let port := cut2.1
  let uri2 := cut2.2
  { uri := uri2, hostname := uri2.drop host, pathname := pathname, port := port }

end V2

/-! ## The environment of `doit` and the buffers

The environment of one call of `doit`: what the sockets deliver and what the
uninitialised locals hold.

* The client is the list of the results of the successive `Rio_readlineb`
  calls on `clientfd`: each element is the line the call stores (its length is
  the value returned); the empty line, or the end of the list, is the return
  value `0` (end of file).
* The origin is the list of the results of the successive `Rio_readn` calls on
  `targetfd`, as for `relay_response`.
* The `Rio_` wrappers end the process on an I/O error; such runs are outside
  the embedding.
* `Rio_readlineb(rp, buf, maxlen)` stores at most `maxlen - 1` bytes and the
  terminator, so a line never overruns the buffer it is read into; on a list
  that holds a longer line the result of `doit` is `none`.
-/

/-- The terminator of a C string. -/
def NUL : Char := Char.ofNat 0

/-- The C string held by a buffer: the bytes before the first terminator. -/
def cstr (mem : List Char) : List Char := mem.takeWhile (fun c => c != NUL)

/-- Writing `bytes` at offset `off` of a buffer of `size` bytes whose content is
`mem`; `none` when the write runs past the end of the buffer. -/
def store (size : Nat) (mem : List Char) (off : Nat) (bytes : List Char) :
    Option (List Char) :=
  if off + bytes.length ≤ size then
    some (mem.take off ++ bytes ++ mem.drop (off + bytes.length))
  else none

/-! ## `clienterror` -/

/-- The call `snprintf(dst + off, sizeof(dst) - off, text)` on an array `dst` of
`size` bytes whose content is `mem`.  With `off < size` at most
`size - off - 1` characters of `text` and a terminator are stored at `off`;
with `off = size` the size argument is `0` and nothing is stored; with
`off > size` the unsigned difference wraps to a huge size and the text is
stored past the array: `none`.  The value `snprintf` returns is the length of
`text` in every case. -/
def snprintf_at (size : Nat) (mem : List Char) (off : Nat) (text : List Char) :
    Option (List Char) :=
  if off < size then store size mem off (text.take (size - off - 1) ++ [NUL])
  else if off = size then some mem
  else none

/-- The four `Rio_writen` calls of `clienterror`, in order: the status line, the
`Content-type` line, the `Content-length` line with the blank line, the body. -/
structure ErrorPage where
  status_line : List Char
  content_type : List Char
  content_length : List Char
  body : List Char
deriving DecidableEq, Repr

/-- The five pieces `clienterror` formats into `body`, for the title line and
the footer line of the variant. -/
def error_body_parts (title footer cause errnum shortmsg longmsg : List Char) :
    List (List Char) :=
  [title,
   "<body bgcolor=ffffff>\r\n".toList,
   errnum ++ ": ".toList ++ shortmsg ++ "\r\n".toList,
   "<p>".toList ++ longmsg ++ ": ".toList ++ cause ++ "\r\n".toList,
   footer]

/-- The successive `body_length += snprintf(body + body_length,
sizeof(body) - body_length, ..)` statements: the content of `body` and
`body_length` after the given pieces. -/
def format_body (MAXBUF : Nat) : List (List Char) → List Char → Nat → Option (List Char × Nat)
  | [], body, body_length => some (body, body_length)
  | text :: texts, body, body_length =>
    match snprintf_at MAXBUF body body_length text with
    | none => none
    | some body1 => format_body MAXBUF texts body1 (body_length + text.length)

/-- The text `snprintf(buf, sizeof(buf), "Content-length: %d\r\n\r\n",
body_length)` formats. -/
def content_length_line (body_length : Nat) : List Char :=
  "Content-length: ".toList ++ (Nat.repr body_length).toList ++ "\r\n\r\n".toList

/-- The function `clienterror`, for the title line and the footer line of the
variant.  `MAXLINE` and `MAXBUF` are the sizes of `buf` and `body` (constants
of `csapp.h`, which is not among the sources) and `body0` is what the
uninitialised `body` holds.  Each header line is formatted into `buf` with
`snprintf(buf, sizeof(buf), ..)` and written with its `strlen`; the body is
written with `Rio_writen(fd, body, body_length)`, `none` when `body_length`
exceeds the array. -/
def clienterror_with (title footer : List Char) (MAXLINE MAXBUF : Nat) (body0 : List Char)
    (cause errnum shortmsg longmsg : List Char) : Option ErrorPage :=
  match format_body MAXBUF (error_body_parts title footer cause errnum shortmsg longmsg)
      body0 0 with
  | none => none
  | some (body, body_length) =>
    if body_length ≤ MAXBUF then
      some { status_line :=
               ("HTTP/1.0 ".toList ++ errnum ++ " ".toList ++ shortmsg ++ "\r\n".toList).take
                 (MAXLINE - 1),
             content_type := "Content-type: text/html\r\n".toList.take (MAXLINE - 1),
             content_length := (content_length_line body_length).take (MAXLINE - 1),
             body := body.take body_length }
    else none

/-! ## `doit`: the request line and the header loop -/

/-- The characters `isspace` accepts: space, and `\t \n \v \f \r`. -/
def isspace (c : Char) : Bool := c == ' ' || (9 ≤ c.toNat && c.toNat ≤ 13)

/-- One `%s` conversion of `sscanf`: white space is skipped, then the longest
run of characters that are not white space is read.  The result is the word
(empty when the input ran out, in which case the conversion fails) and the
input left. -/
def scan_word (input : List Char) : List Char × List Char :=
  ((input.dropWhile isspace).takeWhile (fun c => !isspace c),
   (input.dropWhile isspace).dropWhile (fun c => !isspace c))

/-- The call `sscanf(request_buf, "%s %s %s", method, uri, version)`.  A
destination whose conversion is not reached keeps the content it had
(`method0`, `uri0`, `version0`: the locals are not initialised). -/
def sscanf3 (input method0 uri0 version0 : List Char) : List Char × List Char × List Char :=
  if (scan_word input).1 = [] then (method0, uri0, version0)
  else if (scan_word (scan_word input).2).1 = [] then ((scan_word input).1, uri0, version0)
  else if (scan_word (scan_word (scan_word input).2).2).1 = [] then
    ((scan_word input).1, (scan_word (scan_word input).2).1, version0)
  else
    ((scan_word input).1, (scan_word (scan_word input).2).1,
     (scan_word (scan_word (scan_word input).2).2).1)

/-- What the environment supplies to one call of `doit`.  `MAXLINE` is the
constant of `csapp.h`, which is not among the sources.  `request_buf`,
`line_buf`, `method`, `uri`, `version` are the initial contents of the locals
of these names (`request_buf` as its bytes, the others as the C string they
hold).  `connect hostname port` says whether `open_clientfd` succeeds, `origin`
is what the origin then sends, `malloc_ok` and `realloc_ok` are passed to
`relay_response`. -/
structure Env where
  MAXLINE : Nat
  request_buf : List Char
  line_buf : List Char
  method : List Char
  uri : List Char
  version : List Char
  connect : List Char → List Char → Bool
  origin : List (List Char)
  malloc_ok : Bool
  realloc_ok : Bool

/-- What `doit` sends to the client: bytes written with `Rio_writen`, or the
error page of a call `clienterror(clientfd, cause, errnum, shortmsg, longmsg)`. -/
inductive ClientOutput where
  | wrote (bytes : List Char)
  | clienterror (cause errnum shortmsg longmsg : List Char)
deriving DecidableEq, Repr

/-- What `doit` does with the origin: `open_clientfd` is not called, or it is
called and fails, or it succeeds and `request` is written to `targetfd`. -/
inductive OriginContact where
  | no_contact
  | refused (hostname port : List Char)
  | served (hostname port request : List Char)
deriving DecidableEq, Repr

/-- The observable result of one call of `doit`. -/
structure DoitResult where
  client : ClientOutput
  origin : OriginContact
  cache : Cache
deriving DecidableEq, Repr

/-- How the header loop of `doit` ends. -/
inductive HeaderOutcome where
  | done (request_buf : List Char) (total_bytes : Nat)
  | bad_request
  | too_large
  | overrun
deriving DecidableEq, Repr

/-- The loop `while (1)` of `doit` that reads the request headers (the same
text in both variants).  Each round first compares `line_buf` with `"\r\n"`
and leaves the loop when they are equal; only then it reads the next line
into `line_buf`.  A read of `0` bytes ends with the 400 page; a line that
would bring `total_bytes` to `MAXLINE` or more ends with the 413 page;
otherwise `strcat(request_buf, line_buf)` appends the line at the terminator
of `request_buf` (`overrun` when this runs past the buffer). -/
def read_headers (MAXLINE : Nat) :
    List (List Char) → List Char → List Char → Nat → HeaderOutcome
  | [], request_buf, line_buf, total_bytes =>
    if cstr line_buf = ['\r', '\n'] then .done request_buf total_bytes
    else .bad_request
  | line :: lines, request_buf, line_buf, total_bytes =>
    if cstr line_buf = ['\r', '\n'] then .done request_buf total_bytes
    else if line.length = 0 then .bad_request
    else if total_bytes + line.length < MAXLINE then
      match store MAXLINE request_buf (cstr request_buf).length (cstr line ++ [NUL]) with
      | none => .overrun
      | some request_buf1 => read_headers MAXLINE lines request_buf1 line (total_bytes + line.length)
    else .too_large

/-- The text `snprintf(request_buf, MAXLINE, "%s %s %s\r\n", method, pathname,
version)` formats. -/
def request_line (method pathname version : List Char) : List Char :=
  method ++ [' '] ++ pathname ++ [' '] ++ version ++ ['\r', '\n']

namespace V2

/-- The first piece of the body in `proxy-2.c`. -/
def error_title : List Char := "<html><title>Proxy Error</title>".toList

/-- The last piece of the body in `proxy-2.c`. -/
def error_footer : List Char := "<hr><em>The Cached, Session-based Proxy Server</em>\r\n".toList

/-- The function `clienterror` of `proxy-2.c`. -/
def clienterror (MAXLINE MAXBUF : Nat) (body0 cause errnum shortmsg longmsg : List Char) :
    Option ErrorPage :=
  clienterror_with error_title error_footer MAXLINE MAXBUF body0 cause errnum shortmsg longmsg

/-- The function `doit` of `proxy-2.c`.  Note that the `uri` handed to
`cache_add` is the buffer `parse_uri` has written into. -/
def doit (env : Env) (cache : Cache) (client : List (List Char)) : Option DoitResult :=
  let bytes1 := (client.head?.getD []).length
  if bytes1 = 0 then
    some { client := .clienterror "No request data".toList "400".toList "Bad Request".toList
             "Please submit a valid request".toList,
           origin := .no_contact, cache := cache }
  else
    match store env.MAXLINE env.request_buf 0 (client.head?.getD [] ++ [NUL]) with
    | none => none
    | some request_buf1 =>
      let words := sscanf3 (cstr request_buf1) env.method env.uri env.version
      let method := words.1
      let uri := words.2.1
      let version := words.2.2
      match cache_search cache uri with
      | some item =>
        some { client := .wrote (item.response.take item.size.toNat),
               origin := .no_contact, cache := cache }
      | none =>
        let parsed := parse_uri uri
        match store env.MAXLINE request_buf1 0
            ((request_line method parsed.pathname version).take (env.MAXLINE - 1) ++ [NUL]) with
        | none => none
        | some request_buf2 =>
          match read_headers env.MAXLINE client.tail request_buf2 env.line_buf bytes1 with
          | .overrun => none
          | .bad_request =>
            some { client := .clienterror "Failed reading request".toList "400".toList
                     "Bad Request".toList "Error reading your request".toList,
                   origin := .no_contact, cache := cache }
          | .too_large =>
            some { client := .clienterror "Request too large".toList "413".toList
                     "Request Entity Too Large".toList "Your request headers are too long".toList,
                   origin := .no_contact, cache := cache }
          | .done request_buf3 total_bytes =>
            if env.connect parsed.hostname parsed.port then
              let relayed := relay_response env.malloc_ok env.realloc_ok env.origin
              if relayed.response_size > 0 then
                match cache_add cache parsed.uri (relayed.response_buffer.getD [])
                    relayed.response_size with
                | none => none
                | some cache1 =>
                  some { client := .wrote relayed.client,
                         origin := .served parsed.hostname parsed.port
                           (request_buf3.take total_bytes),
                         cache := cache1 }
              else
                some { client := .wrote relayed.client,
                       origin := .served parsed.hostname parsed.port
                         (request_buf3.take total_bytes),
                       cache := cache }
            else
              some { client := .clienterror "Cannot connect".toList "500".toList
                       "Internal Server Error".toList
                       "Could not connect to target server".toList,
                     origin := .refused parsed.hostname parsed.port, cache := cache }

end V2

namespace V1

/-- The first piece of the body in `proxy.c`. -/
def error_title : List Char := "<html><title>Tiny Error</title>".toList

/-- The last piece of the body in `proxy.c`. -/
def error_footer : List Char := "<hr><em>The Tiny Web server</em>\r\n".toList

/-- The function `clienterror` of `proxy.c`. -/
def clienterror (MAXLINE MAXBUF : Nat) (body0 cause errnum shortmsg longmsg : List Char) :
    Option ErrorPage :=
  clienterror_with error_title error_footer MAXLINE MAXBUF body0 cause errnum shortmsg longmsg

/-- The function `doit` of `proxy.c`.  `parse_uri` leaves `uri` as it is, and
`cache_add` is called whatever `relay_response` handed back (`NULL` and `0`
included). -/
def doit (env : Env) (cache : Cache) (client : List (List Char)) : Option DoitResult :=
  let bytes1 := (client.head?.getD []).length
  if bytes1 = 0 then
    some { client := .clienterror "No request data".toList "400".toList "Bad Request".toList
             "Please submit a valid request".toList,
           origin := .no_contact, cache := cache }
  else
    match store env.MAXLINE env.request_buf 0 (client.head?.getD [] ++ [NUL]) with
    | none => none
    | some request_buf1 =>
      let words := sscanf3 (cstr request_buf1) env.method env.uri env.version
      let method := words.1
      let uri := words.2.1
      let version := words.2.2
      match cache_search cache uri with
      | some item =>
        some { client := .wrote (item.response.take item.size.toNat),
               origin := .no_contact, cache := cache }
      | none =>
        let parsed := parse_uri uri
        match store env.MAXLINE request_buf1 0
            ((request_line method parsed.pathname version).take (env.MAXLINE - 1) ++ [NUL]) with
        | none => none
        | some request_buf2 =>
          match read_headers env.MAXLINE client.tail request_buf2 env.line_buf bytes1 with
          | .overrun => none
          | .bad_request =>
            some { client := .clienterror "Failed reading request".toList "400".toList
                     "Bad Request".toList "Error reading your request".toList,
                   origin := .no_contact, cache := cache }
          | .too_large =>
            some { client := .clienterror "Request too large".toList "413".toList
                     "Request Entity Too Large".toList "Your request headers are too long".toList,
                   origin := .no_contact, cache := cache }
          | .done request_buf3 total_bytes =>
            if env.connect parsed.hostname parsed.port then
              let relayed := relay_response env.malloc_ok env.realloc_ok env.origin
              match cache_add cache uri (relayed.response_buffer.getD [])
                  relayed.response_size with
              | none => none
              | some cache1 =>
                some { client := .wrote relayed.client,
                       origin := .served parsed.hostname parsed.port
                         (request_buf3.take total_bytes),
                       cache := cache1 }
            else
              some { client := .clienterror "Cannot connect".toList "500".toList
                       "Internal Server Error".toList
                       "Could not connect to target server".toList,
                     origin := .refused parsed.hostname parsed.port, cache := cache }

end V1

/-- An environment for the examples below: `MAXLINE = 8192` (its value in the
CS:APP `csapp.h`), locals filled with `?` or empty, an origin that accepts the
connection and answers `origin`, allocations that succeed. -/
def sample_env (origin : List (List Char)) : Env where
  MAXLINE := 8192
  request_buf := List.replicate 8192 '?'
  line_buf := []
  method := []
  uri := []
  version := []
  connect := fun _ _ => true
  origin := origin
  malloc_ok := true
  realloc_ok := true

/-- The environment `sample_env` with `line_buf` holding `"\r\n"` when `doit`
starts: another content the uninitialised array can have. -/
def sample_env_crlf (origin : List (List Char)) : Env where
  MAXLINE := 8192
  request_buf := List.replicate 8192 '?'
  line_buf := ['\r', '\n']
  method := []
  uri := []
  version := []
  connect := fun _ _ => true
  origin := origin
  malloc_ok := true
  realloc_ok := true

/-- The host `parse_uri` of `proxy.c` copies from a host start: the text before
the first `/` or `:` (`hostend`), all of it when there is none. -/
def host_from (hostbegin : List Char) : List Char :=
  match strpbrk ['/', ':'] hostbegin with
  | none => hostbegin
  | some hostend => hostbegin.take hostend

/-- The path `parse_uri` of `proxy.c` copies from a host start: the text from the
first `/` on (`pathbegin`), `"/"` when there is none. -/
def path_from (hostbegin : List Char) : List Char :=
  match strchr '/' hostbegin with
  | none => ['/']
  | some pathbegin => hostbegin.drop pathbegin

/-! ## Properties -/

/-! ### Arithmetic of `wrap_int` -/

theorem wrap_int_of_range (x : Int) (hlo : -2147483648 ≤ x) (hhi : x < 2147483648) :
    wrap_int x = x := by
  unfold wrap_int
  omega

theorem wrap_int_range (x : Int) : -2147483648 ≤ wrap_int x ∧ wrap_int x < 2147483648 := by
  unfold wrap_int
  omega

theorem wrap_int_emod (x : Int) : wrap_int x % 4294967296 = x % 4294967296 := by
  unfold wrap_int
  omega

/-! ### The eviction loop on a consistent cache -/

theorem sum_sizes_nonneg (items : List CachedItem) (h : ∀ it ∈ items, 0 ≤ it.size) :
    0 ≤ sum_sizes items := by
  induction items with
  | nil => simp [sum_sizes]
  | cons it rest ih =>
    have h1 : 0 ≤ it.size := h it (List.mem_cons_self _ _)
    have h2 : 0 ≤ sum_sizes rest := ih (fun x hx => h x (List.mem_cons_of_mem _ hx))
    simp only [sum_sizes]
    omega

/-- On a list of entries of non-negative size whose sizes add up to
`total_size <= MAX_CACHE_SIZE`, the eviction loop returns, and what it leaves
is a tail of the list, consistent again, with room for `size`. -/
theorem cache_evict_bounded (size : Int) (h0 : 0 ≤ size) (hmax : size ≤ MAX_CACHE_SIZE) :
    ∀ (items : List CachedItem) (total : Int),
      total = sum_sizes items → (∀ it ∈ items, 0 ≤ it.size) → total ≤ MAX_CACHE_SIZE →
      ∃ kept evicted, cache_evict size items total = some (kept, sum_sizes kept) ∧
        items = evicted ++ kept ∧ sum_sizes kept + size ≤ MAX_CACHE_SIZE := by
  intro items
  induction items with
  | nil =>
    intro total ht _ _
    subst ht
    unfold MAX_CACHE_SIZE at hmax
    have hw : wrap_int (0 + size) = size := by
      rw [wrap_int_of_range _ (by omega) (by omega)]; omega
    refine ⟨[], [], ?_, rfl, ?_⟩
    · simp only [cache_evict, sum_sizes, hw]
      rw [if_neg (by unfold MAX_CACHE_SIZE; omega)]
    · simp only [sum_sizes]; unfold MAX_CACHE_SIZE; omega
  | cons it rest ih =>
    intro total ht hnn hle
    have h1 : 0 ≤ it.size := hnn it (List.mem_cons_self _ _)
    have hrest : ∀ x ∈ rest, 0 ≤ x.size := fun x hx => hnn x (List.mem_cons_of_mem _ hx)
    have h2 : 0 ≤ sum_sizes rest := sum_sizes_nonneg rest hrest
    simp only [sum_sizes] at ht
    unfold MAX_CACHE_SIZE at hmax hle
    have hw : wrap_int (total + size) = total + size :=
      wrap_int_of_range _ (by omega) (by omega)
    have hw2 : wrap_int (total - it.size) = sum_sizes rest := by
      rw [wrap_int_of_range _ (by omega) (by omega)]; omega
    by_cases hc : total + size > MAX_CACHE_SIZE
    · obtain ⟨kept, evicted, hk, hsplit, hroom⟩ :=
        ih (sum_sizes rest) rfl hrest (by unfold MAX_CACHE_SIZE; omega)
      refine ⟨kept, it :: evicted, ?_, by simp [hsplit], hroom⟩
      simp only [cache_evict, hw, hw2]
      rw [if_pos hc]
      exact hk
    · refine ⟨it :: rest, [], ?_, rfl, ?_⟩
      · simp only [cache_evict, hw]
        rw [if_neg hc]
        simp only [sum_sizes]
        rw [ht]
      · simp only [sum_sizes]; omega

theorem cache_init_ok : CacheOk cache_init := by
  refine ⟨rfl, ?_, by decide⟩
  intro it hit
  simp [cache_init] at hit

/-- One `cache_add` with a non-negative size keeps the invariant, and returns. -/
theorem cache_add_ok (cache : Cache) (uri response : List Char) (size : Int)
    (hok : CacheOk cache) (h0 : 0 ≤ size) :
    ∃ cache1, cache_add cache uri response size = some cache1 ∧ CacheOk cache1 := by
  obtain ⟨hsum, hnn, hle⟩ := hok
  by_cases hbig : size > MAX_CACHE_SIZE
  · exact ⟨cache, by simp [cache_add, hbig], hsum, hnn, hle⟩
  · have hmax : size ≤ MAX_CACHE_SIZE := by omega
    obtain ⟨kept, evicted, hk, hsplit, hroom⟩ :=
      cache_evict_bounded size h0 hmax cache.head cache.total_size hsum hnn hle
    have hkept : ∀ it ∈ kept, 0 ≤ it.size := by
      intro it hit
      exact hnn it (by rw [hsplit]; exact List.mem_append_right _ hit)
    have hk0 : 0 ≤ sum_sizes kept := sum_sizes_nonneg kept hkept
    have hw : wrap_int (sum_sizes kept + size) = sum_sizes kept + size := by
      unfold MAX_CACHE_SIZE at hroom
      exact wrap_int_of_range _ (by omega) (by omega)
    refine ⟨_, by simp only [cache_add, if_neg hbig, hk, if_neg (not_lt.mpr h0)]; rfl, ?_, ?_, ?_⟩
    · simp only [hw, sum_sizes]; omega
    · intro it hit
      rcases List.mem_cons.mp hit with h | h
      · rw [h]; exact h0
      · exact hkept it h
    · simp only [hw]; exact hroom

/-- A sequence of `cache_add` calls with non-negative sizes, from a state that
satisfies the invariant, returns a state that satisfies it. -/
theorem cache_add_seq_ok (calls : List AddCall) (h0 : ∀ a ∈ calls, 0 ≤ a.size) :
    ∀ cache, CacheOk cache → ∃ cache1, cache_add_seq cache calls = some cache1 ∧ CacheOk cache1 := by
  induction calls with
  | nil => intro cache hok; exact ⟨cache, rfl, hok⟩
  | cons a rest ih =>
    intro cache hok
    obtain ⟨c1, hc1, hok1⟩ :=
      cache_add_ok cache a.uri a.response a.size hok (h0 a (List.mem_cons_self _ _))
    obtain ⟨c2, hc2, hok2⟩ := ih (fun x hx => h0 x (List.mem_cons_of_mem _ hx)) c1 hok1
    exact ⟨c2, by simp only [cache_add_seq, hc1]; exact hc2, hok2⟩

/-! ### C1: capacity invariant -/

/-- C1. Capacity invariant: for every sequence of `cache_add` calls with sizes
`>= 0`, applied one after another to the cache of `cache_init`, every call
returns and after every call (after the first `k` calls, for every `k`) the
sum of the sizes of the resident entries is at most `MAX_CACHE_SIZE`. -/
theorem cache_capacity_invariant (calls : List AddCall) (h0 : ∀ a ∈ calls, 0 ≤ a.size)
    (k : Nat) :
    ∃ cache, cache_add_seq cache_init (calls.take k) = some cache ∧
      sum_sizes cache.head ≤ MAX_CACHE_SIZE := by
  obtain ⟨c, hc, hsum, _, hle⟩ :=
    cache_add_seq_ok (calls.take k) (fun a ha => h0 a (List.mem_of_mem_take ha)) cache_init
      cache_init_ok
  exact ⟨c, hc, hsum ▸ hle⟩

theorem cache_capacity_invariant_witness :
    (∀ a ∈ [({ uri := ['a'], response := ['x'], size := 1 } : AddCall)], 0 ≤ a.size) ∧
    ∃ cache, cache_add_seq cache_init
        ([({ uri := ['a'], response := ['x'], size := 1 } : AddCall)].take 1) = some cache ∧
      sum_sizes cache.head ≤ MAX_CACHE_SIZE :=
  ⟨by decide, cache_capacity_invariant [{ uri := ['a'], response := ['x'], size := 1 }]
    (by decide) 1⟩

/-! ### C2: read after write -/

/-- Whatever the signs of the resident sizes, when `total_size` is congruent to
their sum modulo `2^32` (and is `0` on the empty list) the eviction loop
returns for every `size` in `0 .. MAX_CACHE_SIZE`: the list runs out only with
`total_size = 0`, where the loop condition is false. -/
theorem cache_evict_returns (size : Int) (h0 : 0 ≤ size) (hmax : size ≤ MAX_CACHE_SIZE) :
    ∀ (items : List CachedItem) (total : Int),
      total % 4294967296 = sum_sizes items % 4294967296 → (items = [] → total = 0) →
      ∃ kept left, cache_evict size items total = some (kept, left) := by
  intro items
  induction items with
  | nil =>
    intro total _ hnil
    have ht : total = 0 := hnil rfl
    subst ht
    unfold MAX_CACHE_SIZE at hmax
    have hw : wrap_int (0 + size) = size := by
      rw [wrap_int_of_range _ (by omega) (by omega)]; omega
    refine ⟨[], 0, ?_⟩
    simp only [cache_evict, hw]
    rw [if_neg (by unfold MAX_CACHE_SIZE; omega)]
  | cons it rest ih =>
    intro total hcong _
    simp only [sum_sizes] at hcong
    by_cases hc : wrap_int (total + size) > MAX_CACHE_SIZE
    · have hm := wrap_int_emod (total - it.size)
      have hr := wrap_int_range (total - it.size)
      obtain ⟨kept, left, hk⟩ := ih (wrap_int (total - it.size)) (by omega) (by
        intro hnil
        subst hnil
        simp only [sum_sizes] at hcong
        omega)
      exact ⟨kept, left, by simp only [cache_evict]; rw [if_pos hc]; exact hk⟩
    · exact ⟨it :: rest, total, by simp only [cache_evict]; rw [if_neg hc]⟩

/-- C2. Read-after-write: on every cache state whose `total_size` equals the sum
of its entries' sizes, for every uri and every payload of size `s` with
`0 <= s <= MAX_CACHE_SIZE`, `cache_add` returns and `cache_search` of the same
uri on the resulting cache returns the entry just stored: its size is `s` and
its response is the payload, byte for byte; an older entry with the same uri,
further down the list, does not get in the way. -/
theorem cache_read_after_write (cache : Cache) (uri payload : List Char) (s : Int)
    (hsum : cache.total_size = sum_sizes cache.head) (h0 : 0 ≤ s) (hmax : s ≤ MAX_CACHE_SIZE)
    (hlen : (payload.length : Int) = s) :
    ∃ cache1, cache_add cache uri payload s = some cache1 ∧
      cache_search cache1 uri = some { uri := uri, response := payload, size := s } := by
  obtain ⟨kept, left, hk⟩ :=
    cache_evict_returns s h0 hmax cache.head cache.total_size (by rw [hsum]) (by
      intro hnil
      rw [hsum, hnil]
      rfl)
  have htake : payload.take s.toNat = payload := by
    apply List.take_of_length_le
    omega
  refine ⟨_, by simp only [cache_add, if_neg (not_lt.mpr hmax), hk, if_neg (not_lt.mpr h0)]; rfl, ?_⟩
  simp [cache_search, cache_search_from, htake]

theorem cache_read_after_write_witness :
    ((⟨[⟨['u'], ['o', 'l', 'd'], 3⟩], 3⟩ : Cache).total_size =
      sum_sizes (⟨[⟨['u'], ['o', 'l', 'd'], 3⟩], 3⟩ : Cache).head) ∧
    ∃ cache1, cache_add ⟨[⟨['u'], ['o', 'l', 'd'], 3⟩], 3⟩ ['u'] ['n', 'e', 'w', '!'] 4 =
        some cache1 ∧
      cache_search cache1 ['u'] = some ⟨['u'], ['n', 'e', 'w', '!'], 4⟩ :=
  ⟨by decide, cache_read_after_write ⟨[⟨['u'], ['o', 'l', 'd'], 3⟩], 3⟩ ['u']
    ['n', 'e', 'w', '!'] 4 (by decide) (by decide) (by decide) (by decide)⟩

/-! ### The relay loop -/

theorem total_length_nil : total_length [] = 0 := rfl

theorem total_length_cons (buf : List Char) (reads : List (List Char)) :
    total_length (buf :: reads) = buf.length + total_length reads := by
  simp [total_length]

theorem total_length_append (a b : List (List Char)) :
    total_length (a ++ b) = total_length a + total_length b := by
  simp [total_length]

theorem total_length_replicate (k : Nat) (c : List Char) :
    total_length (List.replicate k c) = k * c.length := by
  induction k with
  | zero => simp [total_length]
  | succ k ih => rw [List.replicate_succ, total_length_cons, ih]; ring

/-- Reads that all return data are consumed one list after the other. -/
theorem relay_loop_append (a b : List (List Char)) (ha : ∀ c ∈ a, 0 < c.length) :
    ∀ st, relay_loop (a ++ b) st = relay_loop b (relay_loop a st) := by
  induction a with
  | nil => intro st; rfl
  | cons buf rest ih =>
    intro st
    have hbuf : buf.length > 0 := ha buf (List.mem_cons_self _ _)
    have hrest : ∀ c ∈ rest, 0 < c.length := fun c hc => ha c (List.mem_cons_of_mem _ hc)
    simp only [List.cons_append, relay_loop, if_pos hbuf]
    exact ih hrest _

/-- While everything fits under the cap, the loop accumulates every chunk. -/
theorem relay_loop_fits (reads : List (List Char)) (hne : ∀ c ∈ reads, 0 < c.length) :
    ∀ st : RelayState, st.tmp_buffer.length = st.total_bytes →
      st.total_bytes + total_length reads ≤ MAX_OBJECT_SIZE →
      relay_loop reads st =
        { tmp_buffer := st.tmp_buffer ++ reads.flatten,
          total_bytes := st.total_bytes + total_length reads,
          client := st.client ++ reads.flatten } := by
  induction reads with
  | nil => intro st _ _; simp [relay_loop, total_length]
  | cons buf rest ih =>
    intro st hlen hfit
    have hbuf : buf.length > 0 := hne buf (List.mem_cons_self _ _)
    have hrest : ∀ c ∈ rest, 0 < c.length := fun c hc => hne c (List.mem_cons_of_mem _ hc)
    rw [total_length_cons] at hfit
    have hfit1 : st.total_bytes + buf.length ≤ MAX_OBJECT_SIZE := by omega
    have htake : st.tmp_buffer.take st.total_bytes = st.tmp_buffer :=
      List.take_of_length_le (by omega)
    simp only [relay_loop, if_pos hbuf, if_pos hfit1, htake]
    rw [ih hrest _ (by simp [hlen]) (by simp only []; omega)]
    simp [total_length_cons, Nat.add_assoc]

/-- Chunks none of which fits under the cap are forwarded and not copied. -/
theorem relay_loop_skips (reads : List (List Char)) (hne : ∀ c ∈ reads, 0 < c.length) :
    ∀ st : RelayState, (∀ c ∈ reads, MAX_OBJECT_SIZE < st.total_bytes + c.length) →
      relay_loop reads st = { st with client := st.client ++ reads.flatten } := by
  induction reads with
  | nil => intro st _; simp [relay_loop]
  | cons buf rest ih =>
    intro st hbig
    have hbuf : buf.length > 0 := hne buf (List.mem_cons_self _ _)
    have hrest : ∀ c ∈ rest, 0 < c.length := fun c hc => hne c (List.mem_cons_of_mem _ hc)
    have hno : ¬ st.total_bytes + buf.length ≤ MAX_OBJECT_SIZE :=
      Nat.not_le.mpr (hbig buf (List.mem_cons_self _ _))
    simp only [relay_loop, if_pos hbuf, if_neg hno]
    rw [ih hrest { st with client := st.client ++ buf }
      (fun c hc => hbig c (List.mem_cons_of_mem _ hc))]
    simp

/-- Chunks that fit under the cap, followed by chunks none of which fits on top
of them: the candidate is the first group, the client receives both. -/
theorem relay_response_fits_then_skips (a b : List (List Char))
    (ha : ∀ c ∈ a, 0 < c.length) (hb : ∀ c ∈ b, 0 < c.length)
    (hpos : 0 < total_length a) (hfit : total_length a ≤ MAX_OBJECT_SIZE)
    (hbig : ∀ c ∈ b, MAX_OBJECT_SIZE < total_length a + c.length) :
    relay_response true true (a ++ b) =
      { response_buffer := some a.flatten, response_size := total_length a,
        client := (a ++ b).flatten } := by
  have hloop : relay_loop (a ++ b) { tmp_buffer := [], total_bytes := 0, client := [] } =
      { tmp_buffer := a.flatten, total_bytes := total_length a,
        client := (a ++ b).flatten } := by
    rw [relay_loop_append a b ha,
      relay_loop_fits a ha { tmp_buffer := [], total_bytes := 0, client := [] } rfl
        (by simp only [Nat.zero_add]; exact hfit),
      relay_loop_skips b hb _ (by simp only [Nat.zero_add]; exact hbig)]
    simp
  have htake : a.flatten.take (total_length a) = a.flatten := List.take_of_length_le (le_refl _)
  simp only [relay_response, hloop, if_true, if_pos hpos, htake]

/-! ### C4: an oversized response leaves a truncated candidate -/

/-- C4, the code at a failing input.  An origin response of 106496 bytes read
as 13 chunks of 8192 bytes exceeds `MAX_OBJECT_SIZE`, and `relay_response`
hands back the first 12 chunks as a candidate of 98304 bytes (not `NULL`
and `0`), while the client received all 13. -/
theorem relay_response_truncated_candidate (c : List Char) (hc : c.length = 8192) :
    total_length (List.replicate 12 c ++ [c]) = 106496 ∧
    relay_response true true (List.replicate 12 c ++ [c]) =
      { response_buffer := some (List.replicate 12 c).flatten, response_size := 98304,
        client := (List.replicate 12 c ++ [c]).flatten } := by
  have h12 : total_length (List.replicate 12 c) = 98304 := by
    rw [total_length_replicate, hc]
  have h1 : total_length [c] = 8192 := by
    rw [total_length_cons, total_length_nil, hc]
  constructor
  · rw [total_length_append, h12, h1]
  · have hne : ∀ x ∈ List.replicate 12 c, 0 < x.length := by
      intro x hx
      rw [List.eq_of_mem_replicate hx, hc]
      decide
    have hne1 : ∀ x ∈ [c], 0 < x.length := by
      intro x hx
      rw [List.mem_singleton.mp hx, hc]
      decide
    have h := relay_response_fits_then_skips (List.replicate 12 c) [c] hne hne1
      (by rw [h12]; decide) (by rw [h12]; decide) (by
        intro x hx
        rw [List.mem_singleton.mp hx, hc, h12]
        decide)
    rw [h12] at h
    exact h

theorem relay_response_truncated_candidate_witness :
    (List.replicate 8192 'a').length = 8192 ∧
    total_length (List.replicate 12 (List.replicate 8192 'a') ++ [List.replicate 8192 'a']) =
      106496 ∧
    relay_response true true
        (List.replicate 12 (List.replicate 8192 'a') ++ [List.replicate 8192 'a']) =
      { response_buffer := some (List.replicate 12 (List.replicate 8192 'a')).flatten,
        response_size := 98304,
        client :=
          (List.replicate 12 (List.replicate 8192 'a') ++ [List.replicate 8192 'a']).flatten } :=
  ⟨List.length_replicate _ _,
    relay_response_truncated_candidate (List.replicate 8192 'a') (List.length_replicate _ _)⟩

/-! ### C5: what `cache_add` refuses -/

/-- C5 as stated fails: a payload of 102401 bytes (one above `MAX_OBJECT_SIZE`)
added to the empty cache under a uri that is not resident is stored, and
`cache_search` finds it. -/
theorem cache_add_size_exclusion_counterexample :
    cache_search cache_init ['u'] = none ∧ (MAX_OBJECT_SIZE : Int) < 102401 ∧
    cache_add cache_init ['u'] (List.replicate 102401 'a') 102401 =
      some { head := [{ uri := ['u'], response := List.replicate 102401 'a', size := 102401 }],
             total_size := 102401 } ∧
    cache_search { head := [{ uri := ['u'], response := List.replicate 102401 'a', size := 102401 }],
                   total_size := 102401 } ['u'] =
      some { uri := ['u'], response := List.replicate 102401 'a', size := 102401 } := by
  refine ⟨rfl, by decide, ?_, ?_⟩
  · have hw : wrap_int (0 + 102401) = 102401 := by decide
    have hbig : ¬ ((102401 : Int) > MAX_CACHE_SIZE) := by decide
    have hev : cache_evict 102401 [] 0 = some ([], 0) := by
      simp only [cache_evict, hw]
      rw [if_neg hbig]
    have htake : (List.replicate 102401 'a').take (102401 : Int).toNat = List.replicate 102401 'a' :=
      List.take_of_length_le (by rw [List.length_replicate]; decide)
    simp only [cache_add, cache_init, if_neg hbig, hev, htake, hw]
    rfl
  · simp only [cache_search, cache_search_from]
    rw [if_pos trivial]

/-- C5, amended. For every cache state, every uri `u` that is not resident and
every payload of size `s > MAX_CACHE_SIZE`, `cache_add` returns with the cache
untouched, so `u` is still a miss afterwards. -/
theorem cache_add_rejects_above_capacity (cache : Cache) (u payload : List Char) (s : Int)
    (hmiss : cache_search cache u = none) (hs : s > MAX_CACHE_SIZE) :
    ∃ cache1, cache_add cache u payload s = some cache1 ∧ cache1 = cache ∧
      cache_search cache1 u = none := by
  refine ⟨cache, ?_, rfl, hmiss⟩
  unfold cache_add
  rw [if_pos hs]

theorem cache_add_rejects_above_capacity_witness :
    cache_search cache_init ['u'] = none ∧ (1049001 : Int) > MAX_CACHE_SIZE ∧
    ∃ cache1, cache_add cache_init ['u'] ['x'] 1049001 = some cache1 ∧ cache1 = cache_init ∧
      cache_search cache1 ['u'] = none :=
  ⟨rfl, by decide, cache_add_rejects_above_capacity cache_init ['u'] ['x'] 1049001 rfl (by decide)⟩

/-! ### C6: which entry the eviction loop removes -/

/-- C6, the code at a failing input.  Eleven responses of 102400 bytes are
added under the uris `a` .. `k`, in this order.  The eleventh call has to
evict; the entry it removes is `j`, the most recently inserted one, and the
oldest entry `a` survives, with every other entry older than `j`. -/
theorem cache_add_evicts_newest :
    (cache_add_seq cache_init
        [⟨['a'], List.replicate 102400 'x', 102400⟩, ⟨['b'], List.replicate 102400 'x', 102400⟩,
         ⟨['c'], List.replicate 102400 'x', 102400⟩, ⟨['d'], List.replicate 102400 'x', 102400⟩,
         ⟨['e'], List.replicate 102400 'x', 102400⟩, ⟨['f'], List.replicate 102400 'x', 102400⟩,
         ⟨['g'], List.replicate 102400 'x', 102400⟩, ⟨['h'], List.replicate 102400 'x', 102400⟩,
         ⟨['i'], List.replicate 102400 'x', 102400⟩, ⟨['j'], List.replicate 102400 'x', 102400⟩]).map
        resident_uris =
      some [['j'], ['i'], ['h'], ['g'], ['f'], ['e'], ['d'], ['c'], ['b'], ['a']] ∧
    (cache_add_seq cache_init
        [⟨['a'], List.replicate 102400 'x', 102400⟩, ⟨['b'], List.replicate 102400 'x', 102400⟩,
         ⟨['c'], List.replicate 102400 'x', 102400⟩, ⟨['d'], List.replicate 102400 'x', 102400⟩,
         ⟨['e'], List.replicate 102400 'x', 102400⟩, ⟨['f'], List.replicate 102400 'x', 102400⟩,
         ⟨['g'], List.replicate 102400 'x', 102400⟩, ⟨['h'], List.replicate 102400 'x', 102400⟩,
         ⟨['i'], List.replicate 102400 'x', 102400⟩, ⟨['j'], List.replicate 102400 'x', 102400⟩,
         ⟨['k'], List.replicate 102400 'x', 102400⟩]).map resident_uris =
      some [['k'], ['i'], ['h'], ['g'], ['f'], ['e'], ['d'], ['c'], ['b'], ['a']] := by
  constructor <;> decide

/-! ### C7: entries with the same uri -/

theorem cache_search_from_none (uri : List Char) (items : List CachedItem) :
    cache_search_from uri items = none ↔ uri ∉ items.map CachedItem.uri := by
  induction items with
  | nil => simp [cache_search_from]
  | cons it rest ih =>
    by_cases h : uri = it.uri
    · simp [cache_search_from, h]
    · simp [cache_search_from, h, ih]

/-- What the eviction loop leaves is a tail of the list it started from. -/
theorem cache_evict_suffix (size : Int) :
    ∀ (items : List CachedItem) (total : Int) (kept : List CachedItem) (left : Int),
      cache_evict size items total = some (kept, left) → kept <:+ items := by
  intro items
  induction items with
  | nil =>
    intro total kept left h
    by_cases hc : wrap_int (total + size) > MAX_CACHE_SIZE
    · simp [cache_evict, hc] at h
    · simp [cache_evict, hc] at h
      rw [← h.1]
  | cons it rest ih =>
    intro total kept left h
    by_cases hc : wrap_int (total + size) > MAX_CACHE_SIZE
    · simp only [cache_evict, if_pos hc] at h
      exact List.IsSuffix.trans (ih _ kept left h) (List.suffix_cons it rest)
    · simp [cache_evict, hc] at h
      rw [← h.1]

/-- A `cache_add` for a uri that is not resident keeps the resident uris
pairwise distinct. -/
theorem cache_add_nodup (cache cache1 : Cache) (uri response : List Char) (size : Int)
    (hnd : (resident_uris cache).Nodup) (hmiss : cache_search cache uri = none)
    (hadd : cache_add cache uri response size = some cache1) :
    (resident_uris cache1).Nodup := by
  unfold cache_add at hadd
  by_cases hbig : size > MAX_CACHE_SIZE
  · rw [if_pos hbig] at hadd
    injection hadd with hadd
    rw [← hadd]
    exact hnd
  · rw [if_neg hbig] at hadd
    cases hev : cache_evict size cache.head cache.total_size with
    | none => simp [hev] at hadd
    | some r =>
      obtain ⟨kept, left⟩ := r
      have hsuf : kept <:+ cache.head := cache_evict_suffix size _ _ _ _ hev
      have hsub : (kept.map CachedItem.uri).Sublist (resident_uris cache) :=
        (List.IsSuffix.map CachedItem.uri hsuf).sublist
      have hnotin : uri ∉ resident_uris cache := (cache_search_from_none uri cache.head).mp hmiss
      by_cases hneg : size < 0
      · simp [hev, hneg] at hadd
      · simp only [hev, if_neg hneg] at hadd
        injection hadd with hadd
        rw [← hadd]
        simp only [resident_uris, List.map_cons]
        exact List.nodup_cons.mpr ⟨fun hin => hnotin (hsub.subset hin), hnd.sublist hsub⟩

theorem adds_absent_nodup (calls : List AddCall) :
    ∀ cache cache1, (resident_uris cache).Nodup → adds_absent cache calls = true →
      cache_add_seq cache calls = some cache1 → (resident_uris cache1).Nodup := by
  induction calls with
  | nil =>
    intro cache cache1 hnd _ hseq
    simp only [cache_add_seq] at hseq
    injection hseq with hseq
    rw [← hseq]
    exact hnd
  | cons a rest ih =>
    intro cache cache1 hnd hg hseq
    simp only [adds_absent, Bool.and_eq_true, Option.isNone_iff_eq_none] at hg
    cases hadd : cache_add cache a.uri a.response a.size with
    | none => simp [cache_add_seq, hadd] at hseq
    | some c1 =>
      simp only [cache_add_seq, hadd] at hseq
      have hg2 := hg.2
      simp only [hadd] at hg2
      exact ih c1 cache1 (cache_add_nodup cache c1 a.uri a.response a.size hnd hg.1 hadd)
        hg2 hseq

theorem count_uri_zero (uri : List Char) (items : List CachedItem)
    (h : uri ∉ items.map CachedItem.uri) : count_uri uri items = 0 := by
  induction items with
  | nil => rfl
  | cons it rest ih =>
    simp only [List.map_cons, List.mem_cons, not_or] at h
    simp only [count_uri, ih h.2, if_neg (fun e : it.uri = uri => h.1 e.symm)]

theorem count_uri_le_one (uri : List Char) (items : List CachedItem)
    (h : (items.map CachedItem.uri).Nodup) : count_uri uri items ≤ 1 := by
  induction items with
  | nil => simp [count_uri]
  | cons it rest ih =>
    simp only [List.map_cons, List.nodup_cons] at h
    by_cases e : it.uri = uri
    · simp only [count_uri, if_pos e, count_uri_zero uri rest (e ▸ h.1)]
      omega
    · simp only [count_uri, if_neg e]
      have := ih h.2
      omega

/-- C7 as stated fails: two `cache_add` calls for the same uri leave two
resident entries with that uri, and `total_size` counts both. -/
theorem cache_add_duplicate_counterexample :
    cache_add_seq cache_init [⟨['u'], ['a'], 1⟩, ⟨['u'], ['b'], 1⟩] =
      some { head := [⟨['u'], ['b'], 1⟩, ⟨['u'], ['a'], 1⟩], total_size := 2 } ∧
    count_uri ['u'] [⟨['u'], ['b'], 1⟩, ⟨['u'], ['a'], 1⟩] = 2 := by
  constructor <;> decide

/-- When its condition is false at the start, the eviction loop leaves the list
and the total as they are. -/
theorem cache_evict_no_need (size : Int) (items : List CachedItem) (total : Int)
    (hfit : ¬ wrap_int (total + size) > MAX_CACHE_SIZE) :
    cache_evict size items total = some (items, total) := by
  cases items with
  | nil => simp only [cache_evict, if_neg hfit]
  | cons it rest => simp only [cache_evict, if_neg hfit]

/-- C7, amended. Uniqueness by URI is not enforced by `cache_add`; what holds is:
(a) in every cache state reached from `cache_init` by `cache_add` calls none
of which is made for a uri that is resident at the time of the call, at most
one resident entry has any given uri;
(b) `cache_add` never replaces: every call with `size <= MAX_CACHE_SIZE` that
returns has linked the new entry in front of what its eviction loop left of
the list (a tail of the old list) and added `size` to the total that loop
left, so the number of resident entries with the uri is one more than the
number of them the eviction loop left;
(c) in particular a call that needs no eviction leaves every prior entry
resident: the number of entries with the uri grows by one and `total_size`
by `size`. -/
theorem cache_add_never_replaces :
    (∀ (calls : List AddCall) (cache : Cache), adds_absent cache_init calls = true →
      cache_add_seq cache_init calls = some cache → ∀ uri, count_uri uri cache.head ≤ 1) ∧
    (∀ (cache cache1 : Cache) (uri response : List Char) (size : Int),
      size ≤ MAX_CACHE_SIZE → cache_add cache uri response size = some cache1 →
      ∃ kept left, cache_evict size cache.head cache.total_size = some (kept, left) ∧
        kept <:+ cache.head ∧
        cache1.head = { uri := uri, response := response.take size.toNat, size := size } :: kept ∧
        cache1.total_size = wrap_int (left + size) ∧
        count_uri uri cache1.head = count_uri uri kept + 1) ∧
    (∀ (cache cache1 : Cache) (uri response : List Char) (size : Int),
      size ≤ MAX_CACHE_SIZE → ¬ wrap_int (cache.total_size + size) > MAX_CACHE_SIZE →
      cache_add cache uri response size = some cache1 →
      cache1.head = { uri := uri, response := response.take size.toNat, size := size } :: cache.head ∧
        cache1.total_size = wrap_int (cache.total_size + size) ∧
        count_uri uri cache1.head = count_uri uri cache.head + 1) := by
  have hb : ∀ (cache cache1 : Cache) (uri response : List Char) (size : Int),
      size ≤ MAX_CACHE_SIZE → cache_add cache uri response size = some cache1 →
      ∃ kept left, cache_evict size cache.head cache.total_size = some (kept, left) ∧
        kept <:+ cache.head ∧
        cache1.head = { uri := uri, response := response.take size.toNat, size := size } :: kept ∧
        cache1.total_size = wrap_int (left + size) ∧
        count_uri uri cache1.head = count_uri uri kept + 1 := by
    intro cache cache1 uri response size hmax hadd
    unfold cache_add at hadd
    rw [if_neg (not_lt.mpr hmax)] at hadd
    cases hev : cache_evict size cache.head cache.total_size with
    | none => simp [hev] at hadd
    | some r =>
      obtain ⟨kept, left⟩ := r
      by_cases hneg : size < 0
      · simp [hev, hneg] at hadd
      · simp only [hev, if_neg hneg] at hadd
        injection hadd with hadd
        refine ⟨kept, left, rfl, cache_evict_suffix size _ _ _ _ hev, ?_, ?_, ?_⟩
        · rw [← hadd]
        · rw [← hadd]
        · rw [← hadd]
          simp only [count_uri, if_true]
          omega
  refine ⟨?_, hb, ?_⟩
  · intro calls cache habsent hseq uri
    have hnd : (resident_uris cache).Nodup :=
      adds_absent_nodup calls cache_init cache (by simp [resident_uris, cache_init]) habsent hseq
    exact count_uri_le_one uri cache.head hnd
  · intro cache cache1 uri response size hmax hfit hadd
    obtain ⟨kept, left, hev, _, hhead, htotal, hcount⟩ := hb cache cache1 uri response size hmax hadd
    rw [cache_evict_no_need size cache.head cache.total_size hfit] at hev
    injection hev with hev
    injection hev with hk hl
    rw [← hk] at hhead hcount
    rw [← hl] at htotal
    exact ⟨hhead, htotal, hcount⟩

theorem cache_add_never_replaces_witness :
    (adds_absent cache_init [⟨['u'], ['a'], 1⟩, ⟨['v'], ['b'], 1⟩] = true ∧
      cache_add_seq cache_init [⟨['u'], ['a'], 1⟩, ⟨['v'], ['b'], 1⟩] =
        some { head := [⟨['v'], ['b'], 1⟩, ⟨['u'], ['a'], 1⟩], total_size := 2 } ∧
      (1 : Int) ≤ MAX_CACHE_SIZE ∧
      ¬ wrap_int ((⟨[⟨['u'], ['a'], 1⟩], 1⟩ : Cache).total_size + 1) > MAX_CACHE_SIZE ∧
      cache_add ⟨[⟨['u'], ['a'], 1⟩], 1⟩ ['u'] ['b'] 1 =
        some { head := [⟨['u'], ['b'], 1⟩, ⟨['u'], ['a'], 1⟩], total_size := 2 }) ∧
    count_uri ['u'] (Cache.head ⟨[⟨['v'], ['b'], 1⟩, ⟨['u'], ['a'], 1⟩], 2⟩) ≤ 1 ∧
    (Cache.head ⟨[⟨['u'], ['b'], 1⟩, ⟨['u'], ['a'], 1⟩], 2⟩ =
        { uri := ['u'], response := ['b'].take (1 : Int).toNat, size := 1 } ::
          Cache.head ⟨[⟨['u'], ['a'], 1⟩], 1⟩ ∧
      Cache.total_size ⟨[⟨['u'], ['b'], 1⟩, ⟨['u'], ['a'], 1⟩], 2⟩ =
        wrap_int (Cache.total_size ⟨[⟨['u'], ['a'], 1⟩], 1⟩ + 1) ∧
      count_uri ['u'] (Cache.head ⟨[⟨['u'], ['b'], 1⟩, ⟨['u'], ['a'], 1⟩], 2⟩) =
        count_uri ['u'] (Cache.head ⟨[⟨['u'], ['a'], 1⟩], 1⟩) + 1) :=
  ⟨⟨by decide, by decide, by decide, by decide, by decide⟩,
    cache_add_never_replaces.1 [⟨['u'], ['a'], 1⟩, ⟨['v'], ['b'], 1⟩] _ (by decide) (by decide)
      ['u'],
    cache_add_never_replaces.2.2 ⟨[⟨['u'], ['a'], 1⟩], 1⟩ _ ['u'] ['b'] 1 (by decide) (by decide)
      (by decide)⟩

/-! ### C8: full delivery to the client -/

/-- The client side of the loop: every chunk read is appended, whether or not
it was copied to `tmp_buffer`. -/
theorem relay_loop_client (reads : List (List Char)) (hne : ∀ c ∈ reads, 0 < c.length) :
    ∀ st : RelayState, (relay_loop reads st).client = st.client ++ reads.flatten := by
  induction reads with
  | nil => intro st; simp [relay_loop]
  | cons buf rest ih =>
    intro st
    have hbuf : buf.length > 0 := hne buf (List.mem_cons_self _ _)
    have hrest : ∀ c ∈ rest, 0 < c.length := fun c hc => hne c (List.mem_cons_of_mem _ hc)
    simp only [relay_loop, if_pos hbuf]
    rw [ih hrest]
    by_cases hfit : st.total_bytes + buf.length ≤ MAX_OBJECT_SIZE
    · simp [hfit]
    · simp [hfit]

/-- When `malloc(MAX_OBJECT_SIZE)` fails, `relay_response` returns before the
first read: nothing is read from the origin and nothing is written. -/
theorem relay_response_malloc_failed (realloc_ok : Bool) (reads : List (List Char)) :
    relay_response false realloc_ok reads =
      { response_buffer := none, response_size := 0, client := [] } := by
  simp [relay_response]

/-- C8. Full delivery: for every finite sequence of chunks read from the origin
(each read returning at least one byte), of any total length, the bytes
`relay_response` writes to the client are exactly the concatenation of the
chunks in the order read, whether or not the final `realloc` succeeds. -/
theorem relay_response_full_delivery (realloc_ok : Bool) (reads : List (List Char))
    (hne : ∀ c ∈ reads, 0 < c.length) :
    (relay_response true realloc_ok reads).client = reads.flatten := by
  have h := relay_loop_client reads hne { tmp_buffer := [], total_bytes := 0, client := [] }
  simp only [List.nil_append] at h
  unfold relay_response
  simp only [if_true]
  split
  · split <;> exact h
  · exact h

theorem relay_response_full_delivery_witness :
    (∀ c ∈ [['a', 'b'], ['c']], 0 < c.length) ∧
    (relay_response true true [['a', 'b'], ['c']]).client = [['a', 'b'], ['c']].flatten :=
  ⟨by decide, relay_response_full_delivery true [['a', 'b'], ['c']] (by decide)⟩

/-! ### The string functions -/

theorem strstr_append_self (needle rest : List Char) :
    strstr needle (needle ++ rest) = some 0 := by
  cases needle with
  | nil =>
    cases rest with
    | nil => simp [strstr]
    | cons c s => simp [strstr]
  | cons a needle =>
    simp only [List.cons_append, strstr]
    rw [if_pos]
    exact List.isPrefixOf_iff_prefix.mpr ⟨rest, rfl⟩

/-- The function `strstr` returns `NULL` exactly when the needle does not occur. -/
theorem strstr_eq_none (needle : List Char) :
    ∀ s : List Char, strstr needle s = none ↔ ¬ needle <:+: s := by
  intro s
  induction s with
  | nil =>
    by_cases h : needle = []
    · simp [strstr, h]
    · simp [strstr, h]
  | cons c s ih =>
    by_cases hp : needle.isPrefixOf (c :: s) = true
    · have hinf : needle <:+: c :: s := (List.isPrefixOf_iff_prefix.mp hp).isInfix
      simp [strstr, hp, hinf]
    · have hnp : ¬ needle <+: c :: s := fun h => hp (List.isPrefixOf_iff_prefix.mpr h)
      simp only [strstr, if_neg hp, Option.map_eq_none', ih, List.infix_cons_iff, not_or]
      exact ⟨fun h => ⟨hnp, h⟩, fun h => h.2⟩

theorem strchr_append (ch : Char) (h rest : List Char) (hno : ch ∉ h) :
    strchr ch (h ++ ch :: rest) = some h.length := by
  induction h with
  | nil => simp [strchr]
  | cons a h ih =>
    simp only [List.mem_cons, not_or] at hno
    rw [List.cons_append]
    simp only [strchr, if_neg (fun e : a = ch => hno.1 e.symm), ih hno.2]
    rfl

theorem strchr_none (ch : Char) (s : List Char) (hno : ch ∉ s) : strchr ch s = none := by
  induction s with
  | nil => rfl
  | cons a s ih =>
    simp only [List.mem_cons, not_or] at hno
    simp only [strchr, if_neg (fun e : a = ch => hno.1 e.symm), ih hno.2]
    rfl

theorem strpbrk_append (accept h : List Char) (c : Char) (rest : List Char)
    (hno : ∀ a ∈ h, a ∉ accept) (hc : c ∈ accept) :
    strpbrk accept (h ++ c :: rest) = some h.length := by
  induction h with
  | nil => simp [strpbrk, hc]
  | cons a h ih =>
    have ha : a ∉ accept := hno a (List.mem_cons_self _ _)
    rw [List.cons_append]
    simp only [strpbrk, if_neg ha, ih (fun b hb => hno b (List.mem_cons_of_mem _ hb))]
    rfl

theorem strpbrk_none (accept s : List Char) (hno : ∀ a ∈ s, a ∉ accept) :
    strpbrk accept s = none := by
  induction s with
  | nil => rfl
  | cons a s ih =>
    have ha : a ∉ accept := hno a (List.mem_cons_self _ _)
    simp only [strpbrk, if_neg ha, ih (fun b hb => hno b (List.mem_cons_of_mem _ hb))]
    rfl

/-- A run of digits followed by a character that is not a digit is what
`%[0-9]` reads. -/
theorem takeWhile_digits (p : List Char) (c : Char) (rest : List Char)
    (hd : ∀ a ∈ p, a.isDigit = true) (hc : c.isDigit = false) :
    (p ++ c :: rest).takeWhile Char.isDigit = p := by
  induction p with
  | nil => simp [List.takeWhile, hc]
  | cons a p ih =>
    have ha : a.isDigit = true := hd a (List.mem_cons_self _ _)
    rw [List.cons_append]
    simp only [List.takeWhile, ha, ih (fun b hb => hd b (List.mem_cons_of_mem _ hb))]

/-- A needle whose first character does not occur in `h` and that occurs in
`h ++ x` occurs in `x`. -/
theorem infix_of_append (a : Char) (needle h x : List Char) (ha : a ∉ h)
    (hin : (a :: needle) <:+: h ++ x) : (a :: needle) <:+: x := by
  induction h with
  | nil => simpa using hin
  | cons b h ih =>
    simp only [List.mem_cons, not_or] at ha
    rw [List.cons_append, List.infix_cons_iff] at hin
    rcases hin with hpre | hin
    · obtain ⟨t, ht⟩ := hpre
      simp only [List.cons_append, List.cons.injEq] at ht
      exact absurd ht.1 ha.1
    · exact ih ha.2 hin

/-! ### C10: URI resolution -/

theorem slash_not_digit (p : List Char) (hd : ∀ a ∈ p, a.isDigit = true) : '/' ∉ p := by
  intro hin
  have := hd '/' hin
  revert this
  decide

theorem colon_not_digit (p : List Char) (hd : ∀ a ∈ p, a.isDigit = true) : ':' ∉ p := by
  intro hin
  have := hd ':' hin
  revert this
  decide

theorem not_in_accept (h : List Char) (hs : '/' ∉ h) (hc : ':' ∉ h) :
    ∀ a ∈ h, a ∉ ['/', ':'] := by
  intro a ha hacc
  simp only [List.mem_cons, List.mem_singleton, List.not_mem_nil, or_false] at hacc
  rcases hacc with e | e
  · exact hs (e ▸ ha)
  · exact hc (e ▸ ha)

/-- The first `/` of `h:p/y` is the one after the digits. -/
theorem strchr_slash_host_port (h p y : List Char) (hs : '/' ∉ h)
    (hd : ∀ a ∈ p, a.isDigit = true) :
    strchr '/' (h ++ ':' :: (p ++ '/' :: y)) = some (h ++ ':' :: p).length := by
  have e : h ++ ':' :: (p ++ '/' :: y) = (h ++ ':' :: p) ++ '/' :: y := by simp
  rw [e]
  apply strchr_append
  simp only [List.mem_append, List.mem_cons, not_or]
  exact ⟨hs, by decide, slash_not_digit p hd⟩

theorem drop_host_port (h p rest : List Char) :
    (h ++ ':' :: (p ++ rest)).drop (h ++ ':' :: p).length = rest := by
  have e : h ++ ':' :: (p ++ rest) = (h ++ ':' :: p) ++ rest := by simp
  rw [e, List.drop_left]

theorem drop_host_colon (h rest : List Char) :
    (h ++ ':' :: rest).drop (h.length + 1) = rest := by
  have e : h ++ ':' :: rest = (h ++ [':']) ++ rest := by simp
  have l : h.length + 1 = (h ++ [':']).length := by simp
  rw [e, l, List.drop_left]

theorem strstr_scheme_sep (rest : List Char) :
    strstr "://".toList ("http://".toList ++ rest) = some 4 := by
  have e : "http://".toList ++ rest = 'h' :: 't' :: 't' :: 'p' :: (':' :: '/' :: '/' :: rest) := rfl
  have e2 : "://".toList = [':', '/', '/'] := rfl
  rw [e, e2]
  simp [strstr]

/-- With a host free of `:` and a path free of `://`, no scheme separator occurs
in `h ++ x`. -/
theorem no_scheme_sep (h x : List Char) (hc : ':' ∉ h) (hx : ¬ "://".toList <:+: x) :
    ¬ "://".toList <:+: h ++ x := by
  intro hin
  have e2 : "://".toList = ':' :: ['/', '/'] := rfl
  rw [e2] at hin hx
  exact hx (infix_of_append ':' _ h x hc hin)

/-- C10. URI resolution, for both variants of `parse_uri` (`V1` is `proxy.c`,
`V2` is `proxy-2.c`): for every host `h` free of `/` and `:`, every non-empty
string of decimal digits `p` and every path `/y`,
`http://h:p/y` resolves to host `h`, port `p`, path `/y`;
`h/y` with no `://` in the path resolves to host `h`, port `80`, path `/y`;
`http://h` resolves to host `h`, port `80`, path `/`. -/
theorem parse_uri_resolution (h p y : List Char) (hs : '/' ∉ h) (hc : ':' ∉ h) (hp : p ≠ [])
    (hd : ∀ a ∈ p, a.isDigit = true) :
    (V1.parse_uri ("http://".toList ++ (h ++ ':' :: (p ++ '/' :: y))) =
        { status := 0, hostname := h, pathname := '/' :: y, port := p } ∧
      (V2.parse_uri ("http://".toList ++ (h ++ ':' :: (p ++ '/' :: y)))).hostname = h ∧
      (V2.parse_uri ("http://".toList ++ (h ++ ':' :: (p ++ '/' :: y)))).port = p ∧
      (V2.parse_uri ("http://".toList ++ (h ++ ':' :: (p ++ '/' :: y)))).pathname = '/' :: y) ∧
    (¬ "://".toList <:+: '/' :: y →
      V1.parse_uri (h ++ '/' :: y) =
        { status := 0, hostname := h, pathname := '/' :: y, port := "80".toList } ∧
      (V2.parse_uri (h ++ '/' :: y)).hostname = h ∧
      (V2.parse_uri (h ++ '/' :: y)).port = "80".toList ∧
      (V2.parse_uri (h ++ '/' :: y)).pathname = '/' :: y) ∧
    (V1.parse_uri ("http://".toList ++ h) =
        { status := 0, hostname := h, pathname := ['/'], port := "80".toList } ∧
      (V2.parse_uri ("http://".toList ++ h)).hostname = h ∧
      (V2.parse_uri ("http://".toList ++ h)).port = "80".toList ∧
      (V2.parse_uri ("http://".toList ++ h)).pathname = ['/']) := by
  have hacc := not_in_accept h hs hc
  have h7 : ∀ rest : List Char, ("http://".toList ++ rest).drop 7 = rest := fun rest => rfl
  have t7 : ∀ (rest : List Char) (k : Nat),
      ("http://".toList ++ rest).take (7 + k) = "http://".toList ++ rest.take k :=
    fun rest k => @List.take_append Char "http://".toList rest k
  have hbrk : ∀ rest, strpbrk ['/', ':'] (h ++ ':' :: rest) = some h.length :=
    fun rest => strpbrk_append _ h ':' rest hacc (by simp)
  have hbrk2 : ∀ rest, strpbrk ['/', ':'] (h ++ '/' :: rest) = some h.length :=
    fun rest => strpbrk_append _ h '/' rest hacc (by simp)
  have hscan : ∀ dflt, scan_digits (p ++ '/' :: y) dflt = p := by
    intro dflt
    have ht := takeWhile_digits p '/' y hd (by decide)
    simp only [scan_digits, ht, if_neg hp]
  refine ⟨⟨?_, ?_⟩, ?_, ?_, ?_⟩
  · -- proxy.c, http://h:p/y
    simp only [V1.parse_uri, strstr_append_self, Option.isSome_some, if_true, h7, hbrk,
      strchr_slash_host_port h p y hs hd, drop_host_port, drop_host_colon, hscan,
      List.drop_left, List.take_left, List.head?_cons]
  · -- proxy-2.c, http://h:p/y
    have htake : (h ++ ':' :: (p ++ '/' :: y)).take (h ++ ':' :: p).length = h ++ ':' :: p := by
      have e : h ++ ':' :: (p ++ '/' :: y) = (h ++ ':' :: p) ++ '/' :: y := by simp
      rw [e, List.take_left]
    have hv : V2.parse_uri ("http://".toList ++ (h ++ ':' :: (p ++ '/' :: y))) =
        { uri := "http://".toList ++ h, hostname := h, pathname := '/' :: y, port := p } := by
      simp only [V2.parse_uri, strstr_scheme_sep, h7, t7, strchr_slash_host_port h p y hs hd,
        drop_host_port, htake, strchr_append ':' h p hc, drop_host_colon, List.take_left]
    rw [hv]
    exact ⟨rfl, rfl, rfl⟩
  · -- no scheme, h/y
    intro hx
    have hsep : strstr "://".toList (h ++ '/' :: y) = none :=
      (strstr_eq_none _ _).mpr (no_scheme_sep h _ hc hx)
    have hin : ∀ pre : List Char, "://".toList <:+: pre → ¬ pre <:+: h ++ '/' :: y :=
      fun pre hpre hh => no_scheme_sep h _ hc hx (hpre.trans hh)
    have hhttp : strstr "http://".toList (h ++ '/' :: y) = none :=
      (strstr_eq_none _ _).mpr (hin _ ⟨"http".toList, [], rfl⟩)
    have hhttps : strstr "https://".toList (h ++ '/' :: y) = none :=
      (strstr_eq_none _ _).mpr (hin _ ⟨"https".toList, [], rfl⟩)
    constructor
    · simp only [V1.parse_uri, hhttp, hhttps, Option.isSome_none, Bool.false_eq_true, if_false,
        hbrk2, strchr_append '/' h y hs, List.drop_left, List.take_left, List.head?_cons]
      simp
    · have hv : V2.parse_uri (h ++ '/' :: y) =
          { uri := h, hostname := h, pathname := '/' :: y, port := "80".toList } := by
        simp only [V2.parse_uri, hsep, List.drop_zero, Nat.zero_add, strchr_append '/' h y hs,
          List.drop_left, List.take_left, strchr_none ':' h hc]
      rw [hv]
      exact ⟨rfl, rfl, rfl⟩
  · -- proxy.c, http://h
    simp only [V1.parse_uri, strstr_append_self, Option.isSome_some, if_true, h7,
      strpbrk_none _ h hacc]
  · -- proxy-2.c, http://h
    have hv : V2.parse_uri ("http://".toList ++ h) =
        { uri := "http://".toList ++ h, hostname := h, pathname := ['/'],
          port := "80".toList } := by
      simp only [V2.parse_uri, strstr_scheme_sep, h7, strchr_none '/' h hs,
        strchr_none ':' h hc]
    rw [hv]
    exact ⟨rfl, rfl, rfl⟩

theorem parse_uri_resolution_witness :
    ('/' ∉ "a.com".toList ∧ ':' ∉ "a.com".toList ∧ "8080".toList ≠ [] ∧
      (∀ a ∈ "8080".toList, a.isDigit = true) ∧ ¬ "://".toList <:+: "/x".toList) ∧
    ((V1.parse_uri "http://a.com:8080/x".toList =
        { status := 0, hostname := "a.com".toList, pathname := "/x".toList,
          port := "8080".toList } ∧
      (V2.parse_uri "http://a.com:8080/x".toList).hostname = "a.com".toList ∧
      (V2.parse_uri "http://a.com:8080/x".toList).port = "8080".toList ∧
      (V2.parse_uri "http://a.com:8080/x".toList).pathname = "/x".toList) ∧
    (¬ "://".toList <:+: "/x".toList →
      V1.parse_uri "a.com/x".toList =
        { status := 0, hostname := "a.com".toList, pathname := "/x".toList,
          port := "80".toList } ∧
      (V2.parse_uri "a.com/x".toList).hostname = "a.com".toList ∧
      (V2.parse_uri "a.com/x".toList).port = "80".toList ∧
      (V2.parse_uri "a.com/x".toList).pathname = "/x".toList) ∧
    (V1.parse_uri "http://a.com".toList =
        { status := 0, hostname := "a.com".toList, pathname := "/".toList,
          port := "80".toList } ∧
      (V2.parse_uri "http://a.com".toList).hostname = "a.com".toList ∧
      (V2.parse_uri "http://a.com".toList).port = "80".toList ∧
      (V2.parse_uri "http://a.com".toList).pathname = "/".toList)) :=
  ⟨by decide,
    parse_uri_resolution "a.com".toList "8080".toList "x".toList (by decide) (by decide)
      (by decide) (by decide)⟩

/-! ### `doit` at concrete requests -/

/-- C3, the code at a failing input.  `doit` of `proxy-2.c` receives
`GET http://a.com/x HTTP/1.0` and a blank line, on the empty cache, with an
origin that answers.  The entry it stores has the key `http://a.com`, not the
target `http://a.com/x` that was looked up: `parse_uri` has cut the `uri`
buffer at the `/`.  The lookup of the target on the resulting cache misses,
and a second identical request contacts the origin again (and stores a second
entry under the cut key). -/
theorem doit_cache_key_truncated :
    (V2.doit (sample_env ["HTTP/1.0 200 OK\r\n\r\nhi".toList]) cache_init
        ["GET http://a.com/x HTTP/1.0\r\n".toList, "\r\n".toList]).map DoitResult.cache =
      some { head := [⟨"http://a.com".toList, "HTTP/1.0 200 OK\r\n\r\nhi".toList, 21⟩],
             total_size := 21 } ∧
    cache_search { head := [⟨"http://a.com".toList, "HTTP/1.0 200 OK\r\n\r\nhi".toList, 21⟩],
                   total_size := 21 } "http://a.com/x".toList = none ∧
    (V2.doit (sample_env ["HTTP/1.0 200 OK\r\n\r\nhi".toList])
        { head := [⟨"http://a.com".toList, "HTTP/1.0 200 OK\r\n\r\nhi".toList, 21⟩],
          total_size := 21 }
        ["GET http://a.com/x HTTP/1.0\r\n".toList, "\r\n".toList]).map
      (fun r => (r.origin != OriginContact.no_contact, resident_uris r.cache)) =
      some (true, ["http://a.com".toList, "http://a.com".toList]) := by
  refine ⟨by decide, by decide, by decide⟩

/-- The same two requests through `doit` of `proxy.c`, whose `parse_uri` does
not write into `uri`: the entry is stored under the target, and the second
request is served from the cache without any contact with the origin. -/
theorem doit_v1_second_request_hit :
    (V1.doit (sample_env ["HTTP/1.0 200 OK\r\n\r\nhi".toList]) cache_init
        ["GET http://a.com/x HTTP/1.0\r\n".toList, "\r\n".toList]).map DoitResult.cache =
      some { head := [⟨"http://a.com/x".toList, "HTTP/1.0 200 OK\r\n\r\nhi".toList, 21⟩],
             total_size := 21 } ∧
    V1.doit (sample_env ["HTTP/1.0 200 OK\r\n\r\nhi".toList])
        { head := [⟨"http://a.com/x".toList, "HTTP/1.0 200 OK\r\n\r\nhi".toList, 21⟩],
          total_size := 21 }
        ["GET http://a.com/x HTTP/1.0\r\n".toList, "\r\n".toList] =
      some { client := .wrote "HTTP/1.0 200 OK\r\n\r\nhi".toList, origin := .no_contact,
             cache := { head := [⟨"http://a.com/x".toList, "HTTP/1.0 200 OK\r\n\r\nhi".toList, 21⟩],
                        total_size := 21 } } := by
  refine ⟨by decide, by decide⟩

/-- C9, the code at a failing input.  For the request line
`GET http://a.com/x HTTP/1.0` (29 bytes) followed by the blank line, the text
to forward is `GET /x HTTP/1.0`, CRLF, CRLF: 19 bytes.  Both variants of
`doit` write `total_bytes = 29 + 2 = 31` bytes of `request_buf` to the origin:
the 19 bytes of the text, then the terminator, what is left of the original
request line, another terminator and one byte that was never written. -/
theorem doit_forwards_stale_bytes :
    (V2.doit (sample_env ["ok".toList]) cache_init
        ["GET http://a.com/x HTTP/1.0\r\n".toList, "\r\n".toList]).map DoitResult.origin =
      some (.served "a.com".toList "80".toList
        ("GET /x HTTP/1.0\r\n\r\n".toList ++ NUL :: "TTP/1.0\r\n".toList ++ [NUL, '?'])) ∧
    (V1.doit (sample_env ["ok".toList]) cache_init
        ["GET http://a.com/x HTTP/1.0\r\n".toList, "\r\n".toList]).map DoitResult.origin =
      some (.served "a.com".toList "80".toList
        ("GET /x HTTP/1.0\r\n\r\n".toList ++ NUL :: "TTP/1.0\r\n".toList ++ [NUL, '?'])) ∧
    ("GET /x HTTP/1.0\r\n\r\n".toList ++ NUL :: "TTP/1.0\r\n".toList ++ [NUL, '?']).length = 31 ∧
    (request_line "GET".toList "/x".toList "HTTP/1.0".toList ++ "\r\n".toList).length = 19 := by
  refine ⟨by decide, by decide, by decide, by decide⟩

/-! ### C11: the default port of `proxy-2.c` -/

/-- C11, the code at a failing input.  For the target `https://a.com/x` (no
explicit port) `parse_uri` of `proxy-2.c` yields the port `80`: it stores
`"80"` before it looks at the scheme and never stores `"443"`.  The same holds
without a path.  `parse_uri` of `proxy.c` yields `443` for these targets, and
both yield `80` for `http://a.com/x`. -/
theorem parse_uri_https_default_port :
    (V2.parse_uri "https://a.com/x".toList).port = "80".toList ∧
    (V2.parse_uri "https://a.com".toList).port = "80".toList ∧
    (V2.parse_uri "https://a.com/x".toList).hostname = "a.com".toList ∧
    (V1.parse_uri "https://a.com/x".toList).port = "443".toList ∧
    (V1.parse_uri "https://a.com".toList).port = "443".toList ∧
    (V2.parse_uri "http://a.com/x".toList).port = "80".toList ∧
    (V1.parse_uri "http://a.com/x".toList).port = "80".toList := by
  refine ⟨by decide, by decide, by decide, by decide, by decide, by decide, by decide⟩

/-! ### C12: what `parse_uri` of `proxy-2.c` does to its argument -/

/-- C12, the code at a failing input.  After `parse_uri` of `proxy-2.c` the
`uri` buffer no longer holds the target: `http://a.com:8080/x` has become
`http://a.com` (cut at the `:`), `http://a.com/x` has become `http://a.com`
(cut at the `/`) and `a.com/x` has become `a.com`. -/
theorem parse_uri_overwrites_uri :
    (V2.parse_uri "http://a.com:8080/x".toList).uri = "http://a.com".toList ∧
    (V2.parse_uri "http://a.com/x".toList).uri = "http://a.com".toList ∧
    (V2.parse_uri "a.com/x".toList).uri = "a.com".toList ∧
    "http://a.com".toList ≠ "http://a.com:8080/x".toList := by
  refine ⟨by decide, by decide, by decide, by decide⟩

/-! ### C13: the empty target -/

/-- C13 as stated fails: on the empty target `parse_uri` of `proxy.c` returns
`0`, as on every path, with host empty, port `80` and path `/`; `parse_uri` of
`proxy-2.c`, which returns nothing, fills in the same three strings. -/
theorem parse_uri_empty_counterexample :
    V1.parse_uri [] =
      { status := 0, hostname := [], pathname := "/".toList, port := "80".toList } ∧
    V2.parse_uri [] =
      { uri := [], hostname := [], pathname := "/".toList, port := "80".toList } := by
  refine ⟨by decide, by decide⟩

/-- C13, amended. Neither variant of `parse_uri` reports an error: the value
returned by `parse_uri` of `proxy.c` is `0` for every target, and for the empty
target both variants resolve to the empty host, the port `80` and the path
`/`. -/
theorem parse_uri_never_fails (uri : List Char) :
    (V1.parse_uri uri).status = 0 ∧
    ((V1.parse_uri []).hostname = [] ∧ (V1.parse_uri []).port = "80".toList ∧
      (V1.parse_uri []).pathname = "/".toList) ∧
    ((V2.parse_uri []).hostname = [] ∧ (V2.parse_uri []).port = "80".toList ∧
      (V2.parse_uri []).pathname = "/".toList) := by
  refine ⟨?_, by decide, by decide⟩
  unfold V1.parse_uri
  simp only []
  split <;> rfl

/-! ### C14: the port of `proxy-2.c` -/

/-- C14, the code at a failing input.  For `a.com:80ab/x` the `:` that ends the
host is followed by the digits `80`, and `parse_uri` of `proxy-2.c` sets the
port to `80ab`, everything up to the `/`; `parse_uri` of `proxy.c`, which
reads the port with `%[0-9]`, sets it to `80`.  The path is `/x` in both. -/
theorem parse_uri_port_not_digits :
    V2.parse_uri "a.com:80ab/x".toList =
      { uri := "a.com".toList, hostname := "a.com".toList, pathname := "/x".toList,
        port := "80ab".toList } ∧
    V1.parse_uri "a.com:80ab/x".toList =
      { status := 0, hostname := "a.com".toList, pathname := "/x".toList,
        port := "80".toList } := by
  refine ⟨by decide, by decide⟩

/-! ### C15: the `Content-length` of the error page -/

/-- A write that stays inside a buffer of `size` bytes: the buffer keeps its
length, and up to the end of the write it holds what was before the offset
followed by the bytes written. -/
theorem store_inside (size : Nat) (mem : List Char) (off : Nat) (bytes : List Char)
    (hmem : mem.length = size) (hin : off + bytes.length ≤ size) :
    ∃ mem1, store size mem off bytes = some mem1 ∧ mem1.length = size ∧
      mem1.take (off + bytes.length) = mem.take off ++ bytes := by
  refine ⟨mem.take off ++ bytes ++ mem.drop (off + bytes.length), ?_, ?_, ?_⟩
  · simp only [store, if_pos hin]
  · simp only [List.length_append, List.length_take, List.length_drop]
    omega
  · have hl : (mem.take off ++ bytes).length = off + bytes.length := by
      simp only [List.length_append, List.length_take]
      omega
    rw [← hl, List.take_left]

/-- Pieces that fit into `body` together with a terminator are laid out one
after the other, and `body_length` grows by their lengths. -/
theorem format_body_fits (MAXBUF : Nat) (texts : List (List Char)) :
    ∀ (body : List Char) (off : Nat), body.length = MAXBUF →
      off + texts.flatten.length < MAXBUF →
      ∃ body1, format_body MAXBUF texts body off = some (body1, off + texts.flatten.length) ∧
        body1.length = MAXBUF ∧
        body1.take (off + texts.flatten.length) = body.take off ++ texts.flatten := by
  induction texts with
  | nil =>
    intro body off hlen _
    exact ⟨body, by simp [format_body], hlen, by simp⟩
  | cons text texts ih =>
    intro body off hlen hfit
    simp only [List.flatten_cons, List.length_append] at hfit
    have hoff : off < MAXBUF := by omega
    have htake : text.take (MAXBUF - off - 1) = text := List.take_of_length_le (by omega)
    obtain ⟨mem1, hstore, hlen1, htake1⟩ :=
      store_inside MAXBUF body off (text ++ [NUL]) hlen (by
        simp only [List.length_append, List.length_singleton]
        omega)
    have hpre : mem1.take (off + text.length) = body.take off ++ text := by
      have h := congrArg (List.take (off + text.length)) htake1
      simp only [List.take_take, List.length_append, List.length_singleton] at h
      rw [Nat.min_eq_left (by omega)] at h
      rw [h, ← List.append_assoc, List.take_append_of_le_length (by
        simp only [List.length_append, List.length_take]
        omega)]
      apply List.take_of_length_le
      simp only [List.length_append, List.length_take]
      omega
    obtain ⟨body1, hfmt, hlen2, htake2⟩ := ih mem1 (off + text.length) hlen1 (by omega)
    refine ⟨body1, ?_, hlen2, ?_⟩
    · simp only [format_body, snprintf_at, if_pos hoff, htake, hstore, hfmt, List.flatten_cons,
        List.length_append, Nat.add_assoc]
    · simp only [List.flatten_cons, List.length_append, ← Nat.add_assoc]
      rw [htake2, hpre, List.append_assoc]

/-- The error page of either variant when the formatted body fits `body` and
the `Content-length` line fits `buf`. -/
theorem clienterror_with_fits (title footer : List Char) (MAXLINE MAXBUF : Nat)
    (body0 cause errnum shortmsg longmsg : List Char) (hbody : body0.length = MAXBUF)
    (hfit : (error_body_parts title footer cause errnum shortmsg longmsg).flatten.length < MAXBUF)
    (hline : ("Content-length: ".toList ++
        (Nat.repr (error_body_parts title footer cause errnum shortmsg longmsg).flatten.length).toList
        ++ "\r\n\r\n".toList).length < MAXLINE) :
    ∃ page, clienterror_with title footer MAXLINE MAXBUF body0 cause errnum shortmsg longmsg =
        some page ∧
      page.body = (error_body_parts title footer cause errnum shortmsg longmsg).flatten ∧
      page.content_length =
        "Content-length: ".toList ++ (Nat.repr page.body.length).toList ++
          "\r\n\r\n".toList := by
  obtain ⟨body1, hfmt, _, htake⟩ :=
    format_body_fits MAXBUF (error_body_parts title footer cause errnum shortmsg longmsg) body0 0
      hbody (by omega)
  simp only [Nat.zero_add, List.take_zero, List.nil_append] at hfmt htake
  refine ⟨_, by simp only [clienterror_with, hfmt, if_pos (Nat.le_of_lt hfit)]; rfl, htake, ?_⟩
  simp only [htake, content_length_line]
  exact List.take_of_length_le (by omega)

/-- C15. Error page Content-length, in both variants of `clienterror`: for every
cause, errnum, shortmsg and longmsg whose formatted body `text` fits the
`body` array (and whose `Content-length` line fits `buf`), the body written
is `text`, and the third write is the text `Content-length: `, the decimal
digits of the number of bytes of the body written, CRLF, CRLF. -/
theorem clienterror_content_length (MAXLINE MAXBUF : Nat)
    (body0 cause errnum shortmsg longmsg : List Char) (hbody : body0.length = MAXBUF) :
    (∀ text : List Char,
      text = "<html><title>Tiny Error</title>".toList ++ "<body bgcolor=ffffff>\r\n".toList ++
        errnum ++ ": ".toList ++ shortmsg ++ "\r\n".toList ++
        "<p>".toList ++ longmsg ++ ": ".toList ++ cause ++ "\r\n".toList ++
        "<hr><em>The Tiny Web server</em>\r\n".toList →
      text.length < MAXBUF →
      ("Content-length: ".toList ++ (Nat.repr text.length).toList ++ "\r\n\r\n".toList).length
        < MAXLINE →
      ∃ page, V1.clienterror MAXLINE MAXBUF body0 cause errnum shortmsg longmsg = some page ∧
        page.body = text ∧
        page.content_length =
          "Content-length: ".toList ++ (Nat.repr page.body.length).toList ++
            "\r\n\r\n".toList) ∧
    (∀ text : List Char,
      text = "<html><title>Proxy Error</title>".toList ++ "<body bgcolor=ffffff>\r\n".toList ++
        errnum ++ ": ".toList ++ shortmsg ++ "\r\n".toList ++
        "<p>".toList ++ longmsg ++ ": ".toList ++ cause ++ "\r\n".toList ++
        "<hr><em>The Cached, Session-based Proxy Server</em>\r\n".toList →
      text.length < MAXBUF →
      ("Content-length: ".toList ++ (Nat.repr text.length).toList ++ "\r\n\r\n".toList).length
        < MAXLINE →
      ∃ page, V2.clienterror MAXLINE MAXBUF body0 cause errnum shortmsg longmsg = some page ∧
        page.body = text ∧
        page.content_length =
          "Content-length: ".toList ++ (Nat.repr page.body.length).toList ++
            "\r\n\r\n".toList) := by
  constructor
  · intro text htext hfit hline
    have e : (error_body_parts V1.error_title V1.error_footer cause errnum shortmsg
        longmsg).flatten = text := by
      rw [htext]
      simp only [error_body_parts, V1.error_title, V1.error_footer, List.flatten_cons,
        List.flatten_nil, List.append_assoc, List.append_nil]
    obtain ⟨page, hpage, hb, hl⟩ :=
      clienterror_with_fits V1.error_title V1.error_footer MAXLINE MAXBUF body0 cause errnum
        shortmsg longmsg hbody (by rw [e]; exact hfit) (by rw [e]; exact hline)
    exact ⟨page, hpage, by rw [hb, e], hl⟩
  · intro text htext hfit hline
    have e : (error_body_parts V2.error_title V2.error_footer cause errnum shortmsg
        longmsg).flatten = text := by
      rw [htext]
      simp only [error_body_parts, V2.error_title, V2.error_footer, List.flatten_cons,
        List.flatten_nil, List.append_assoc, List.append_nil]
    obtain ⟨page, hpage, hb, hl⟩ :=
      clienterror_with_fits V2.error_title V2.error_footer MAXLINE MAXBUF body0 cause errnum
        shortmsg longmsg hbody (by rw [e]; exact hfit) (by rw [e]; exact hline)
    exact ⟨page, hpage, by rw [hb, e], hl⟩

set_option maxRecDepth 20000 in
theorem clienterror_content_length_witness :
    (List.replicate 8192 '?').length = 8192 ∧
    (∃ page, V1.clienterror 8192 8192 (List.replicate 8192 '?') "No request data".toList
        "400".toList "Bad Request".toList "Please submit a valid request".toList = some page ∧
      page.body =
        "<html><title>Tiny Error</title>".toList ++ "<body bgcolor=ffffff>\r\n".toList ++
        "400".toList ++ ": ".toList ++ "Bad Request".toList ++ "\r\n".toList ++
        "<p>".toList ++ "Please submit a valid request".toList ++ ": ".toList ++
        "No request data".toList ++ "\r\n".toList ++
        "<hr><em>The Tiny Web server</em>\r\n".toList ∧
      page.content_length =
        "Content-length: ".toList ++ (Nat.repr page.body.length).toList ++ "\r\n\r\n".toList) ∧
    (∃ page, V2.clienterror 8192 8192 (List.replicate 8192 '?') "No request data".toList
        "400".toList "Bad Request".toList "Please submit a valid request".toList = some page ∧
      page.body =
        "<html><title>Proxy Error</title>".toList ++ "<body bgcolor=ffffff>\r\n".toList ++
        "400".toList ++ ": ".toList ++ "Bad Request".toList ++ "\r\n".toList ++
        "<p>".toList ++ "Please submit a valid request".toList ++ ": ".toList ++
        "No request data".toList ++ "\r\n".toList ++
        "<hr><em>The Cached, Session-based Proxy Server</em>\r\n".toList ∧
      page.content_length =
        "Content-length: ".toList ++ (Nat.repr page.body.length).toList ++ "\r\n\r\n".toList) :=
  ⟨List.length_replicate _ _,
    (clienterror_content_length 8192 8192 (List.replicate 8192 '?') "No request data".toList
      "400".toList "Bad Request".toList "Please submit a valid request".toList
      (List.length_replicate _ _)).1 _ rfl (by decide) (by decide),
    (clienterror_content_length 8192 8192 (List.replicate 8192 '?') "No request data".toList
      "400".toList "Bad Request".toList "Please submit a valid request".toList
      (List.length_replicate _ _)).2 _ rfl (by decide) (by decide)⟩

set_option maxRecDepth 20000 in
/-- The error pages of the four calls `doit` makes, with `MAXLINE` and `MAXBUF`
at 8192: the `Content-length` line and the number of bytes of the body, in
`proxy-2.c` and in `proxy.c`. -/
theorem clienterror_doit_calls :
    ((V2.clienterror 8192 8192 (List.replicate 8192 '?') "No request data".toList "400".toList
        "Bad Request".toList "Please submit a valid request".toList).map
      (fun page => (page.content_length, page.body.length)) =
        some ("Content-length: 177\r\n\r\n".toList, 177) ∧
     (V2.clienterror 8192 8192 (List.replicate 8192 '?') "Failed reading request".toList
        "400".toList "Bad Request".toList "Error reading your request".toList).map
      (fun page => (page.content_length, page.body.length)) =
        some ("Content-length: 181\r\n\r\n".toList, 181) ∧
     (V2.clienterror 8192 8192 (List.replicate 8192 '?') "Request too large".toList "413".toList
        "Request Entity Too Large".toList "Your request headers are too long".toList).map
      (fun page => (page.content_length, page.body.length)) =
        some ("Content-length: 196\r\n\r\n".toList, 196) ∧
     (V2.clienterror 8192 8192 (List.replicate 8192 '?') "Cannot connect".toList "500".toList
        "Internal Server Error".toList "Could not connect to target server".toList).map
      (fun page => (page.content_length, page.body.length)) =
        some ("Content-length: 191\r\n\r\n".toList, 191)) ∧
    ((V1.clienterror 8192 8192 (List.replicate 8192 '?') "No request data".toList "400".toList
        "Bad Request".toList "Please submit a valid request".toList).map
      (fun page => (page.content_length, page.body.length)) =
        some ("Content-length: 157\r\n\r\n".toList, 157) ∧
     (V1.clienterror 8192 8192 (List.replicate 8192 '?') "Failed reading request".toList
        "400".toList "Bad Request".toList "Error reading your request".toList).map
      (fun page => (page.content_length, page.body.length)) =
        some ("Content-length: 161\r\n\r\n".toList, 161) ∧
     (V1.clienterror 8192 8192 (List.replicate 8192 '?') "Request too large".toList "413".toList
        "Request Entity Too Large".toList "Your request headers are too long".toList).map
      (fun page => (page.content_length, page.body.length)) =
        some ("Content-length: 176\r\n\r\n".toList, 176) ∧
     (V1.clienterror 8192 8192 (List.replicate 8192 '?') "Cannot connect".toList "500".toList
        "Internal Server Error".toList "Could not connect to target server".toList).map
      (fun page => (page.content_length, page.body.length)) =
        some ("Content-length: 171\r\n\r\n".toList, 171)) := by
  refine ⟨⟨by decide, by decide, by decide, by decide⟩, by decide, by decide, by decide, by decide⟩

/-! ### C16: what `doit` of `proxy.c` stores when the origin sends nothing -/

/-- C16, the code at a failing input.  The origin accepts the connection and
closes it without sending a byte, so `relay_response` hands back `NULL` and
`0`.  `doit` of `proxy.c` calls `cache_add` all the same: the cache gains an
entry of size `0` under the target, which a lookup then finds.  `doit` of
`proxy-2.c`, which tests `response_size > 0`, leaves the cache as it was. -/
theorem doit_v1_caches_empty_response :
    relay_response true true [] = { response_buffer := none, response_size := 0, client := [] } ∧
    (V1.doit (sample_env []) cache_init
        ["GET http://a.com/x HTTP/1.0\r\n".toList, "\r\n".toList]).map DoitResult.cache =
      some { head := [⟨"http://a.com/x".toList, [], 0⟩], total_size := 0 } ∧
    cache_search { head := [⟨"http://a.com/x".toList, [], 0⟩], total_size := 0 }
      "http://a.com/x".toList = some ⟨"http://a.com/x".toList, [], 0⟩ ∧
    (V2.doit (sample_env []) cache_init
        ["GET http://a.com/x HTTP/1.0\r\n".toList, "\r\n".toList]).map DoitResult.cache =
      some cache_init := by
  refine ⟨by decide, by decide, by decide, by decide⟩

/-! ### C17: the running total -/

/-- On a state that satisfies the invariant, `cache_add` faults only for a
negative size. -/
theorem cache_add_none_negative (cache : Cache) (uri response : List Char) (size : Int)
    (hok : CacheOk cache) (hnone : cache_add cache uri response size = none) : size < 0 := by
  by_contra hneg
  obtain ⟨c1, hc1, _⟩ := cache_add_ok cache uri response size hok (not_lt.mp hneg)
  rw [hc1] at hnone
  exact absurd hnone (by simp)

/-- A `cache_add` that returns on a state that satisfies the invariant leaves
one that satisfies it. -/
theorem cache_add_some_ok (cache cache1 : Cache) (uri response : List Char) (size : Int)
    (hok : CacheOk cache) (hsome : cache_add cache uri response size = some cache1) :
    CacheOk cache1 := by
  by_cases hneg : size < 0
  · exfalso
    unfold cache_add at hsome
    by_cases hbig : size > MAX_CACHE_SIZE
    · unfold MAX_CACHE_SIZE at hbig
      omega
    · rw [if_neg hbig] at hsome
      cases hev : cache_evict size cache.head cache.total_size with
      | none => simp [hev] at hsome
      | some r => simp [hev, hneg] at hsome
  · obtain ⟨c1, hc1, hok1⟩ := cache_add_ok cache uri response size hok (not_lt.mp hneg)
    rw [hc1] at hsome
    injection hsome with hsome
    rw [← hsome]
    exact hok1

/-- A sequence of calls from a state that satisfies the invariant either
returns a state that satisfies it, or faults at a call with a negative size. -/
theorem cache_add_seq_total (calls : List AddCall) :
    ∀ cache, CacheOk cache →
      (∀ cache1, cache_add_seq cache calls = some cache1 → CacheOk cache1) ∧
      (cache_add_seq cache calls = none → ∃ a ∈ calls, a.size < 0) := by
  induction calls with
  | nil =>
    intro cache hok
    refine ⟨?_, ?_⟩
    · intro cache1 h
      simp only [cache_add_seq] at h
      injection h with h
      rw [← h]
      exact hok
    · intro h
      simp [cache_add_seq] at h
  | cons a rest ih =>
    intro cache hok
    cases hadd : cache_add cache a.uri a.response a.size with
    | none =>
      refine ⟨?_, ?_⟩
      · intro cache1 h
        simp [cache_add_seq, hadd] at h
      · intro _
        exact ⟨a, List.mem_cons_self _ _, cache_add_none_negative cache _ _ _ hok hadd⟩
    | some c1 =>
      have hok1 := cache_add_some_ok cache c1 _ _ _ hok hadd
      obtain ⟨ih1, ih2⟩ := ih c1 hok1
      refine ⟨?_, ?_⟩
      · intro cache1 h
        simp only [cache_add_seq, hadd] at h
        exact ih1 cache1 h
      · intro h
        simp only [cache_add_seq, hadd] at h
        obtain ⟨b, hb, hneg⟩ := ih2 h
        exact ⟨b, List.mem_cons_of_mem _ hb, hneg⟩

/-- C17. Running total: for every sequence of `cache_add` calls executed one at
a time from `cache_init` and every number `k` of calls done, the state after
the `k`-th call has `total_size` equal to the sum of the `size` fields of the
resident entries, whether or not the calls evicted; the only runs that do not
reach that state are those in which a call passed a negative size (which
faults in `memcpy`). -/
theorem cache_running_total (calls : List AddCall) (k : Nat) :
    (∀ cache, cache_add_seq cache_init (calls.take k) = some cache →
      cache.total_size = sum_sizes cache.head) ∧
    (cache_add_seq cache_init (calls.take k) = none → ∃ a ∈ calls, a.size < 0) := by
  obtain ⟨h1, h2⟩ := cache_add_seq_total (calls.take k) cache_init cache_init_ok
  refine ⟨fun cache h => (h1 cache h).1, ?_⟩
  intro h
  obtain ⟨a, ha, hneg⟩ := h2 h
  exact ⟨a, List.mem_of_mem_take ha, hneg⟩

/-- An instance of the running total with an eviction: ten entries of 102400
bytes fill the cache to 1024000, the eleventh call evicts one of them, and
`total_size` is 1024000 again, the sum of the ten resident sizes. -/
theorem cache_running_total_evicting :
    (cache_add_seq cache_init
        [⟨['a'], List.replicate 102400 'x', 102400⟩, ⟨['b'], List.replicate 102400 'x', 102400⟩,
         ⟨['c'], List.replicate 102400 'x', 102400⟩, ⟨['d'], List.replicate 102400 'x', 102400⟩,
         ⟨['e'], List.replicate 102400 'x', 102400⟩, ⟨['f'], List.replicate 102400 'x', 102400⟩,
         ⟨['g'], List.replicate 102400 'x', 102400⟩, ⟨['h'], List.replicate 102400 'x', 102400⟩,
         ⟨['i'], List.replicate 102400 'x', 102400⟩, ⟨['j'], List.replicate 102400 'x', 102400⟩,
         ⟨['k'], List.replicate 102400 'x', 102400⟩]).map
      (fun cache => (cache.total_size, sum_sizes cache.head, cache.head.length)) =
      some (1024000, 1024000, 10) := by
  decide

/-! ### C18: lookup -/

/-- The traversal returns the first entry with the uri, if there is one. -/
theorem cache_search_from_some (uri : List Char) (items : List CachedItem) (item : CachedItem)
    (h : cache_search_from uri items = some item) :
    ∃ before after, items = before ++ item :: after ∧ item.uri = uri ∧
      ∀ x ∈ before, x.uri ≠ uri := by
  induction items with
  | nil => simp [cache_search_from] at h
  | cons it rest ih =>
    by_cases e : uri = it.uri
    · simp only [cache_search_from, if_pos e] at h
      injection h with h
      refine ⟨[], rest, by rw [h]; rfl, by rw [← h]; exact e.symm, ?_⟩
      intro x hx
      simp at hx
    · simp only [cache_search_from, if_neg e] at h
      obtain ⟨before, after, hsplit, huri, hbefore⟩ := ih h
      refine ⟨it :: before, after, by rw [hsplit]; rfl, huri, ?_⟩
      intro x hx
      rcases List.mem_cons.mp hx with hx | hx
      · rw [hx]; exact fun e2 => e e2.symm
      · exact hbefore x hx

/-- C18. Lookup: for every cache and uri, when `cache_search` returns an entry it
is a resident entry whose uri is equal to the argument, character for
character, and no entry nearer the head has that uri; it returns `NULL`
exactly when no resident entry has that uri.  (The function only reads the
cache: the list and `total_size` are not written.) -/
theorem cache_search_lookup (cache : Cache) (uri : List Char) :
    (∀ item, cache_search cache uri = some item →
      ∃ before after, cache.head = before ++ item :: after ∧ item.uri = uri ∧
        ∀ x ∈ before, x.uri ≠ uri) ∧
    (cache_search cache uri = none ↔ ∀ x ∈ cache.head, x.uri ≠ uri) := by
  refine ⟨fun item h => cache_search_from_some uri cache.head item h, ?_⟩
  unfold cache_search
  rw [cache_search_from_none]
  constructor
  · intro h x hx e
    exact h (List.mem_map.mpr ⟨x, hx, e⟩)
  · intro h hin
    obtain ⟨x, hx, e⟩ := List.mem_map.mp hin
    exact h x hx e

/-- The comparison is exact: a uri that differs from the resident one only in the
case of a letter, or by a trailing `/`, is a miss. -/
theorem cache_search_exact :
    cache_search { head := [⟨"http://a.com/x".toList, ['r'], 1⟩], total_size := 1 }
      "http://A.com/x".toList = none ∧
    cache_search { head := [⟨"http://a.com/x".toList, ['r'], 1⟩], total_size := 1 }
      "http://a.com/x/".toList = none ∧
    cache_search { head := [⟨"http://a.com/x".toList, ['r'], 1⟩], total_size := 1 }
      "http://a.com/x".toList = some ⟨"http://a.com/x".toList, ['r'], 1⟩ := by
  refine ⟨by decide, by decide, by decide⟩

/-! ### C19: a chunk copied after a chunk was left out -/

/-- Chunks that fit, then chunks none of which fits on top of them, then chunks
that do fit on top of the first group: the candidate is the first group
followed by the third, the client receives all three. -/
theorem relay_response_fits_skips_fits (a b d : List (List Char))
    (ha : ∀ c ∈ a, 0 < c.length) (hb : ∀ c ∈ b, 0 < c.length) (hd : ∀ c ∈ d, 0 < c.length)
    (hpos : 0 < total_length a)
    (hbig : ∀ c ∈ b, MAX_OBJECT_SIZE < total_length a + c.length)
    (hfit : total_length a + total_length d ≤ MAX_OBJECT_SIZE) :
    relay_response true true (a ++ (b ++ d)) =
      { response_buffer := some (a.flatten ++ d.flatten),
        response_size := total_length a + total_length d,
        client := a.flatten ++ (b.flatten ++ d.flatten) } := by
  have hloop : relay_loop (a ++ (b ++ d)) { tmp_buffer := [], total_bytes := 0, client := [] } =
      { tmp_buffer := a.flatten ++ d.flatten, total_bytes := total_length a + total_length d,
        client := a.flatten ++ (b.flatten ++ d.flatten) } := by
    rw [relay_loop_append a (b ++ d) ha,
      relay_loop_fits a ha { tmp_buffer := [], total_bytes := 0, client := [] } rfl
        (by simp only [Nat.zero_add]; omega),
      relay_loop_append b d hb,
      relay_loop_skips b hb _ (by simp only [Nat.zero_add]; exact hbig),
      relay_loop_fits d hd _ (by simp [total_length]) (by simp only [Nat.zero_add]; exact hfit)]
    simp
  have hlen : (a.flatten ++ d.flatten).length = total_length a + total_length d := by
    simp [total_length]
  have htake : (a.flatten ++ d.flatten).take (total_length a + total_length d) =
      a.flatten ++ d.flatten := List.take_of_length_le (by omega)
  have hpos2 : total_length a + total_length d > 0 := by omega
  simp only [relay_response, hloop, if_true, if_pos hpos2, htake]

/-- C19, the code at a failing input.  The origin sends 13 chunks `c` of 8192
bytes and a last chunk `d` of 100 bytes that does not repeat the start of `c`.
The first 12 chunks are copied, the 13th is left out (98304 + 8192 exceeds
`MAX_OBJECT_SIZE`), and the last one is copied again (98304 + 100 does not):
the candidate is the first 12 chunks followed by `d`, which is not a prefix
of what the client received. -/
theorem relay_response_copies_after_skip (c d : List Char) (hc : c.length = 8192)
    (hd : d.length = 100) (hdiff : ¬ d <+: c) :
    relay_response true true (List.replicate 12 c ++ ([c] ++ [d])) =
      { response_buffer := some ((List.replicate 12 c).flatten ++ d),
        response_size := 98404,
        client := (List.replicate 12 c).flatten ++ (c ++ d) } ∧
    ¬ ((List.replicate 12 c).flatten ++ d) <+: (List.replicate 12 c).flatten ++ (c ++ d) := by
  have h12 : total_length (List.replicate 12 c) = 98304 := by
    rw [total_length_replicate, hc]
  have h1 : total_length [d] = 100 := by
    rw [total_length_cons, total_length_nil, hd]
  constructor
  · have hne : ∀ x ∈ List.replicate 12 c, 0 < x.length := by
      intro x hx
      rw [List.eq_of_mem_replicate hx, hc]
      decide
    have hnec : ∀ x ∈ [c], 0 < x.length := by
      intro x hx
      rw [List.mem_singleton.mp hx, hc]
      decide
    have hned : ∀ x ∈ [d], 0 < x.length := by
      intro x hx
      rw [List.mem_singleton.mp hx, hd]
      decide
    have h := relay_response_fits_skips_fits (List.replicate 12 c) [c] [d] hne hnec hned
      (by rw [h12]; decide) (by
        intro x hx
        rw [List.mem_singleton.mp hx, hc, h12]
        decide) (by rw [h12, h1]; decide)
    rw [h12, h1] at h
    simpa using h
  · intro hpre
    have hd2 : d <+: c ++ d := (List.prefix_append_right_inj _).mp hpre
    exact hdiff (List.prefix_of_prefix_length_le hd2 (List.prefix_append c d) (by omega))

theorem relay_response_copies_after_skip_witness :
    ((List.replicate 8192 'a').length = 8192 ∧ (List.replicate 100 'b').length = 100 ∧
      ¬ List.replicate 100 'b' <+: List.replicate 8192 'a') ∧
    relay_response true true
        (List.replicate 12 (List.replicate 8192 'a') ++
          ([List.replicate 8192 'a'] ++ [List.replicate 100 'b'])) =
      { response_buffer :=
          some ((List.replicate 12 (List.replicate 8192 'a')).flatten ++ List.replicate 100 'b'),
        response_size := 98404,
        client := (List.replicate 12 (List.replicate 8192 'a')).flatten ++
          (List.replicate 8192 'a' ++ List.replicate 100 'b') } ∧
    ¬ ((List.replicate 12 (List.replicate 8192 'a')).flatten ++ List.replicate 100 'b') <+:
        (List.replicate 12 (List.replicate 8192 'a')).flatten ++
          (List.replicate 8192 'a' ++ List.replicate 100 'b') :=
  have hdiff : ¬ List.replicate 100 'b' <+: List.replicate 8192 'a' := by
    rintro ⟨t, ht⟩
    have e1 : List.replicate 100 'b' = 'b' :: List.replicate 99 'b' := rfl
    have e2 : List.replicate 8192 'a' = 'a' :: List.replicate 8191 'a' := rfl
    rw [e1, e2, List.cons_append] at ht
    injection ht with hh _
    exact absurd hh (by decide)
  ⟨⟨List.length_replicate _ _, List.length_replicate _ _, hdiff⟩,
    relay_response_copies_after_skip (List.replicate 8192 'a') (List.replicate 100 'b')
      (List.length_replicate _ _) (List.length_replicate _ _) hdiff⟩

/-! ### C20: the candidate when everything fits -/

/-- C20. For every sequence of chunks read from the origin (each read returning
at least one byte) with total length `L`: if `0 < L <= MAX_OBJECT_SIZE`,
`relay_response` (its two allocations succeeding) returns `response_size = L`
and a buffer equal to the concatenation of the chunks; if `L = 0` it returns
`NULL` and `0`, whatever the allocations do. -/
theorem relay_response_candidate (reads : List (List Char)) (hne : ∀ c ∈ reads, 0 < c.length) :
    (0 < total_length reads → total_length reads ≤ MAX_OBJECT_SIZE →
      relay_response true true reads =
        { response_buffer := some reads.flatten, response_size := total_length reads,
          client := reads.flatten }) ∧
    (total_length reads = 0 → ∀ malloc_ok realloc_ok : Bool,
      (relay_response malloc_ok realloc_ok reads).response_buffer = none ∧
      (relay_response malloc_ok realloc_ok reads).response_size = 0) := by
  constructor
  · intro hpos hfit
    have hloop := relay_loop_fits reads hne { tmp_buffer := [], total_bytes := 0, client := [] }
      rfl (by simp only [Nat.zero_add]; exact hfit)
    simp only [Nat.zero_add, List.nil_append] at hloop
    have htake : reads.flatten.take (total_length reads) = reads.flatten :=
      List.take_of_length_le (le_refl _)
    simp only [relay_response, hloop, if_true, if_pos hpos, htake]
  · intro hzero malloc_ok realloc_ok
    have hloop := relay_loop_fits reads hne { tmp_buffer := [], total_bytes := 0, client := [] }
      rfl (by simp only [Nat.zero_add, hzero]; exact Nat.zero_le _)
    simp only [Nat.zero_add, List.nil_append, hzero] at hloop
    cases malloc_ok
    · simp [relay_response]
    · simp [relay_response, hloop]

theorem relay_response_candidate_witness :
    (∀ c ∈ [['a', 'b'], ['c']], 0 < c.length) ∧
    relay_response true true [['a', 'b'], ['c']] =
      { response_buffer := some ['a', 'b', 'c'], response_size := 3, client := ['a', 'b', 'c'] } ∧
    (relay_response true true []).response_buffer = none ∧
    (relay_response true true []).response_size = 0 :=
  ⟨by decide,
    (relay_response_candidate [['a', 'b'], ['c']] (by decide)).1 (by decide) (by decide),
    (relay_response_candidate [] (by decide)).2 rfl true true⟩

/-! ### C21: the header loop and the initial content of `line_buf` -/

/-- When `line_buf` holds `"\r\n"` on entry, the header loop leaves at its first
test: no line is read from the client, nothing is appended, whatever the
client sends. -/
theorem read_headers_initial_crlf (MAXLINE : Nat) (lines : List (List Char))
    (request_buf : List Char) (total_bytes : Nat) :
    read_headers MAXLINE lines request_buf ['\r', '\n'] total_bytes =
      .done request_buf total_bytes := by
  have h : cstr ['\r', '\n'] = ['\r', '\n'] := by decide
  cases lines with
  | nil => simp only [read_headers, h, if_true]
  | cons line rest => simp only [read_headers, h, if_true]

/-- C21, the code at a failing input.  The client sends
`GET http://a.com/x HTTP/1.0`, `Host: a.com` and the blank line.  The loop of
`doit` compares `line_buf` with `"\r\n"` before its first read, so the result
depends on what the uninitialised `line_buf` holds.  When it holds the empty
string both header lines are read and appended to the outgoing request; when
it holds `"\r\n"` the loop is left at once, no header line is read, and the
request written to the origin carries neither `Host: a.com` nor the blank
line.  Both variants behave the same way. -/
theorem doit_header_loop_reads_line_buf_first :
    (V2.doit (sample_env ["ok".toList]) cache_init
        ["GET http://a.com/x HTTP/1.0\r\n".toList, "Host: a.com\r\n".toList,
         "\r\n".toList]).map DoitResult.origin =
      some (.served "a.com".toList "80".toList
        ("GET /x HTTP/1.0\r\nHost: a.com\r\n\r\n".toList ++ NUL :: List.replicate 11 '?')) ∧
    (V2.doit (sample_env_crlf ["ok".toList]) cache_init
        ["GET http://a.com/x HTTP/1.0\r\n".toList, "Host: a.com\r\n".toList,
         "\r\n".toList]).map DoitResult.origin =
      some (.served "a.com".toList "80".toList
        ("GET /x HTTP/1.0\r\n".toList ++ NUL :: " HTTP/1.0\r\n".toList)) ∧
    (V1.doit (sample_env ["ok".toList]) cache_init
        ["GET http://a.com/x HTTP/1.0\r\n".toList, "Host: a.com\r\n".toList,
         "\r\n".toList]).map DoitResult.origin =
      some (.served "a.com".toList "80".toList
        ("GET /x HTTP/1.0\r\nHost: a.com\r\n\r\n".toList ++ NUL :: List.replicate 11 '?')) ∧
    (V1.doit (sample_env_crlf ["ok".toList]) cache_init
        ["GET http://a.com/x HTTP/1.0\r\n".toList, "Host: a.com\r\n".toList,
         "\r\n".toList]).map DoitResult.origin =
      some (.served "a.com".toList "80".toList
        ("GET /x HTTP/1.0\r\n".toList ++ NUL :: " HTTP/1.0\r\n".toList)) := by
  refine ⟨by decide, by decide, by decide, by decide⟩

/-! ### C22: the schemes `parse_uri` of `proxy.c` knows -/

theorem strpbrk_none_strchr (s : List Char) (h : strpbrk ['/', ':'] s = none) :
    strchr '/' s = none := by
  induction s with
  | nil => rfl
  | cons a s ih =>
    by_cases ha : a ∈ ['/', ':']
    · simp [strpbrk, ha] at h
    · simp only [strpbrk, if_neg ha, Option.map_eq_none'] at h
      have hne : ¬ a = '/' := fun e => ha (by simp [e])
      simp only [strchr, if_neg hne, ih h]
      rfl

/-- What `parse_uri` of `proxy.c` does once `hostbegin` is known: the host and
the path are read from there. -/
theorem V1_host_path_from (hostbegin port : List Char) :
    (match strpbrk ['/', ':'] hostbegin with
      | none => ({ status := 0, hostname := hostbegin, pathname := ['/'], port := port } : ParsedUri)
      | some hostend =>
        { status := 0, hostname := hostbegin.take hostend,
          pathname :=
            match strchr '/' hostbegin with
            | none => ['/']
            | some pathbegin => hostbegin.drop pathbegin,
          port :=
            if (hostbegin.drop hostend).head? = some ':' then
              scan_digits (hostbegin.drop (hostend + 1)) port
            else port }).hostname = host_from hostbegin ∧
    (match strpbrk ['/', ':'] hostbegin with
      | none => ({ status := 0, hostname := hostbegin, pathname := ['/'], port := port } : ParsedUri)
      | some hostend =>
        { status := 0, hostname := hostbegin.take hostend,
          pathname :=
            match strchr '/' hostbegin with
            | none => ['/']
            | some pathbegin => hostbegin.drop pathbegin,
          port :=
            if (hostbegin.drop hostend).head? = some ':' then
              scan_digits (hostbegin.drop (hostend + 1)) port
            else port }).pathname = path_from hostbegin := by
  cases hb : strpbrk ['/', ':'] hostbegin with
  | none => simp only [host_from, path_from, hb, strpbrk_none_strchr hostbegin hb, and_self]
  | some hostend => simp only [host_from, path_from, hb, and_self]

/-- The text `http://` does not start inside `https://`: it occurs in
`https://` followed by `rest` only where it occurs in `rest`. -/
theorem strstr_http_in_https (rest : List Char) :
    strstr "http://".toList ("https://".toList ++ rest) =
      (strstr "http://".toList rest).map (· + 8) := by
  have e : "https://".toList ++ rest =
      'h' :: 't' :: 't' :: 'p' :: 's' :: ':' :: '/' :: '/' :: rest := rfl
  have e2 : "http://".toList = ['h', 't', 't', 'p', ':', '/', '/'] := rfl
  rw [e, e2]
  simp only [strstr, List.isPrefixOf, Option.map_map]
  simp

/-- C22 as stated fails: the target `ftp://a.com/x` contains the separator (the
text after its first occurrence is `a.com/x`), and `parse_uri` of `proxy.c`,
which knows the two prefixes `http://` and `https://` only, takes the target
itself as the host start: the host is `ftp` and the path is `//a.com/x`. -/
theorem parse_uri_v1_scheme_counterexample :
    strstr "://".toList "ftp://a.com/x".toList = some 3 ∧
    "ftp://a.com/x".toList.drop (3 + 3) = "a.com/x".toList ∧
    V1.parse_uri "ftp://a.com/x".toList =
      { status := 0, hostname := "ftp".toList, pathname := "//a.com/x".toList,
        port := "80".toList } := by
  refine ⟨by decide, by decide, by decide⟩

/-- C22, amended. For every target that begins with `http://`, and for every
target that begins with `https://` and does not contain `http://`,
`parse_uri` of `proxy.c` takes the text right after that prefix as the host
start: the host and the path are those read from that text. -/
theorem parse_uri_v1_host_start (rest : List Char) :
    ((V1.parse_uri ("http://".toList ++ rest)).hostname = host_from rest ∧
      (V1.parse_uri ("http://".toList ++ rest)).pathname = path_from rest) ∧
    (¬ "http://".toList <:+: rest →
      (V1.parse_uri ("https://".toList ++ rest)).hostname = host_from rest ∧
      (V1.parse_uri ("https://".toList ++ rest)).pathname = path_from rest) := by
  constructor
  · have h7 : ("http://".toList ++ rest).drop 7 = rest := rfl
    simp only [V1.parse_uri, strstr_append_self, Option.isSome_some, if_true, h7]
    exact V1_host_path_from rest "80".toList
  · intro hno
    have h8 : ("https://".toList ++ rest).drop 8 = rest := rfl
    have hhttp : strstr "http://".toList ("https://".toList ++ rest) = none := by
      rw [strstr_http_in_https, (strstr_eq_none _ rest).mpr hno]
      rfl
    simp only [V1.parse_uri, hhttp, Option.isSome_none, Bool.false_eq_true, if_false,
      strstr_append_self, Option.isSome_some, if_true, h8]
    exact V1_host_path_from rest "443".toList

theorem parse_uri_v1_host_start_witness :
    ¬ "http://".toList <:+: "a.com/x".toList ∧
    ((V1.parse_uri "http://a.com/x".toList).hostname = host_from "a.com/x".toList ∧
      (V1.parse_uri "http://a.com/x".toList).pathname = path_from "a.com/x".toList) ∧
    ((V1.parse_uri "https://a.com/x".toList).hostname = host_from "a.com/x".toList ∧
      (V1.parse_uri "https://a.com/x".toList).pathname = path_from "a.com/x".toList) ∧
    host_from "a.com/x".toList = "a.com".toList ∧ path_from "a.com/x".toList = "/x".toList :=
  ⟨by decide, (parse_uri_v1_host_start "a.com/x".toList).1,
    (parse_uri_v1_host_start "a.com/x".toList).2 (by decide), by decide, by decide⟩

/-! ### C23: the eviction loop never runs on an empty list -/

/-- When the eviction loop returns, its condition is false on what it leaves. -/
theorem cache_evict_exit (size : Int) :
    ∀ (items : List CachedItem) (total : Int) (kept : List CachedItem) (left : Int),
      cache_evict size items total = some (kept, left) →
      ¬ wrap_int (left + size) > MAX_CACHE_SIZE := by
  intro items
  induction items with
  | nil =>
    intro total kept left h
    by_cases hc : wrap_int (total + size) > MAX_CACHE_SIZE
    · simp [cache_evict, hc] at h
    · simp [cache_evict, hc] at h
      rw [← h.2]
      exact hc
  | cons it rest ih =>
    intro total kept left h
    by_cases hc : wrap_int (total + size) > MAX_CACHE_SIZE
    · simp only [cache_evict, if_pos hc] at h
      exact ih _ kept left h
    · simp [cache_evict, hc] at h
      rw [← h.2]
      exact hc

/-- C23. For every cache state in which `total_size` equals the sum of the
resident sizes and every size is `>= 0`, and every `s` with
`0 <= s <= MAX_CACHE_SIZE`, the eviction loop of `cache_add` returns without
dereferencing a `NULL` head (the result is not `none`): it unlinks entries
from the head only, at most as many as the list holds, and stops with its
condition false, although the condition does not test for an empty list. -/
theorem cache_evict_never_null (cache : Cache) (s : Int)
    (hsum : cache.total_size = sum_sizes cache.head) (hnn : ∀ it ∈ cache.head, 0 ≤ it.size)
    (h0 : 0 ≤ s) (hmax : s ≤ MAX_CACHE_SIZE) :
    ∃ kept left, cache_evict s cache.head cache.total_size = some (kept, left) ∧
      kept <:+ cache.head ∧ kept.length ≤ cache.head.length ∧
      ¬ wrap_int (left + s) > MAX_CACHE_SIZE := by
  have _ := hnn
  obtain ⟨kept, left, hk⟩ :=
    cache_evict_returns s h0 hmax cache.head cache.total_size (by rw [hsum]) (by
      intro hnil
      rw [hsum, hnil]
      rfl)
  have hsuf := cache_evict_suffix s _ _ _ _ hk
  exact ⟨kept, left, hk, hsuf, hsuf.length_le, cache_evict_exit s _ _ _ _ hk⟩

theorem cache_evict_never_null_witness :
    ((⟨[⟨['b'], ['y'], 1048000⟩, ⟨['a'], ['x'], 1000⟩], 1049000⟩ : Cache).total_size =
        sum_sizes (⟨[⟨['b'], ['y'], 1048000⟩, ⟨['a'], ['x'], 1000⟩], 1049000⟩ : Cache).head ∧
      (∀ it ∈ (⟨[⟨['b'], ['y'], 1048000⟩, ⟨['a'], ['x'], 1000⟩], 1049000⟩ : Cache).head,
        0 ≤ it.size)) ∧
    cache_evict 1049000 [⟨['b'], ['y'], 1048000⟩, ⟨['a'], ['x'], 1000⟩] 1049000 = some ([], 0) ∧
    ∃ kept left, cache_evict 1049000
        (⟨[⟨['b'], ['y'], 1048000⟩, ⟨['a'], ['x'], 1000⟩], 1049000⟩ : Cache).head
        (⟨[⟨['b'], ['y'], 1048000⟩, ⟨['a'], ['x'], 1000⟩], 1049000⟩ : Cache).total_size =
          some (kept, left) ∧
      kept <:+ (⟨[⟨['b'], ['y'], 1048000⟩, ⟨['a'], ['x'], 1000⟩], 1049000⟩ : Cache).head ∧
      kept.length ≤
        (⟨[⟨['b'], ['y'], 1048000⟩, ⟨['a'], ['x'], 1000⟩], 1049000⟩ : Cache).head.length ∧
      ¬ wrap_int (left + 1049000) > MAX_CACHE_SIZE :=
  ⟨⟨by decide, by decide⟩, by decide,
    cache_evict_never_null ⟨[⟨['b'], ['y'], 1048000⟩, ⟨['a'], ['x'], 1000⟩], 1049000⟩ 1049000
      (by decide) (by decide) (by decide) (by decide)⟩

end Proxy
